import Mathlib

/-!
Shallow embedding of the `student_orgs` administrative tool
(`src/student_orgs/app.py`, the Flask web front-end, and
`src/student_orgs/main.py`, the terminal front-end) over a
Firestore-like document store.

Modelling conventions:
* A document is an association list from field names to `Value`s, the
  shape produced by `dataclasses.asdict` on the four entity dataclasses
  (`None` becomes `Value.null`, datetimes become `Value.time`, document
  references stored in `universityId` / `personId` become `Value.ref`).
* The store holds the three top-level collections (`universities`,
  `clubs`, `people`) as lists of `(id, doc)` pairs in insertion
  (creation) order, and the `clubs/{clubId}/memberships` subcollections
  as one list of `(clubId, memId, doc)` triples in insertion order.
  Ids are natural numbers; real auto-generated document ids are
  random, so a document created later may carry a smaller id, and a
  `Store` value with ids out of creation order is reachable.  An
  un-ordered Firestore `stream()` returns documents in ascending
  document-id order, modelled by `streamMemberships`; it does not
  return creation order.
* Python's `.strip()` is modelled by `pyStrip` (ASCII whitespace), and
  the Python idiom `x or y` on strings by `pyOrNone` / `pyOrValue`.
* Firestore's `.order_by("name").stream()` is modelled by `orderByName`,
  an insertion sort ascending on the `name` field compared bytewise.
* `datetime` values are modelled as `Nat`; the web front-end's
  dataclasses take the construction-time clock (its `__post_init__`
  calls `datetime.now(timezone.utc)`), while the terminal front-end's
  dataclasses evaluated `datetime.utcnow()` once at class definition,
  so their constructors receive a fixed `importTime`.
-/

namespace StudentOrgs

/-- Values stored in a document field: strings, Python `None`
(Firestore null), timestamps, and document-id references. -/
inductive Value where
  | str (s : String)
  | null
  | time (t : Nat)
  | ref (i : Nat)
deriving DecidableEq, Repr

/-- A document, as produced by `dataclasses.asdict`: an association
list from field names to values, in field order. -/
abbrev Doc := List (String × Value)

/-- Reading a field of a document (Python `dict` access / `dict.get`). -/
def getField (d : Doc) (k : String) : Option Value :=
  (d.find? (fun p => p.1 == k)).map (fun p => p.2)

/-- Writing one field of a document, preserving field order for an
existing key and appending a new key (Python `dict` assignment, which
is also how a Firestore `update` merges a single field). -/
def setField : Doc → String → Value → Doc
  | [], k, v => [(k, v)]
  | p :: d, k, v => if p.1 = k then (k, v) :: d else p :: setField d k v

/-- Merging a partial update into a document: Firestore
`DocumentReference.update(fields)` replaces exactly the given fields
and leaves all others untouched. -/
def mergeUpdate (d : Doc) (upd : List (String × Value)) : Doc :=
  upd.foldl (fun acc kv => setField acc kv.1 kv.2) d

/-- Python `dict.get(k, dflt)`. -/
def pyGet (d : Doc) (k : String) (dflt : Value) : Value :=
  (getField d k).getD dflt

/-- ASCII whitespace, the characters removed by Python `str.strip()`
on the inputs this system sees. -/
def pyWhitespace (c : Char) : Bool :=
  c = ' ' || c = '\t' || c = '\n' || c = '\r'

/-- Python `str.strip()`: drop leading and trailing whitespace. -/
def pyStrip (s : String) : String :=
  String.mk (((s.data.dropWhile pyWhitespace).reverse.dropWhile pyWhitespace).reverse)

/-- The Python idiom `s or None` applied to an (already stripped)
string: the empty string is falsy and becomes `None`. -/
def pyOrNone (s : String) : Option String :=
  if s = "" then none else some s

/-- The Python idiom `stripped or old` where `stripped` is a stripped
input string and `old` is a stored Python value (possibly `None`):
a non-empty input wins, otherwise the old value is returned. -/
def pyOrValue (stripped : String) (old : Value) : Value :=
  if stripped = "" then old else .str stripped

/-- Serialization of an `Optional[str]` dataclass field by `asdict`:
`None` becomes Firestore null. -/
def optVal : Option String → Value
  | none => .null
  | some s => .str s

/-- app.py `University` dataclass rendered through `asdict`: its
`__post_init__` fills `createdAt` with the construction-time clock
`now` when no explicit value is supplied. -/
def appUniversity (now : Nat) (name : String) (domain : Option String)
    (createdAt : Option Nat) : Doc :=
  [("name", .str name), ("domain", optVal domain),
   ("createdAt", .time (createdAt.getD now))]

/-- app.py `Club` dataclass rendered through `asdict` (construction-time
default for `createdAt`, as for `appUniversity`). -/
def appClubDoc (now : Nat) (name : String) (universityId : Nat)
    (description : Option String) (createdAt : Option Nat) : Doc :=
  [("name", .str name), ("universityId", .ref universityId),
   ("description", optVal description), ("createdAt", .time (createdAt.getD now))]

/-- app.py `Person` dataclass rendered through `asdict`. -/
def appPerson (now : Nat) (name : String) (email studentId : Option String)
    (createdAt : Option Nat) : Doc :=
  [("name", .str name), ("email", optVal email),
   ("studentId", optVal studentId), ("createdAt", .time (createdAt.getD now))]

/-- app.py `Membership` dataclass rendered through `asdict`. -/
def appMembershipDoc (now : Nat) (personId : Nat) (role status : String)
    (title : Option String) (createdAt : Option Nat) : Doc :=
  [("personId", .ref personId), ("role", .str role), ("status", .str status),
   ("title", optVal title), ("createdAt", .time (createdAt.getD now))]

/-- main.py `University` dataclass rendered through `asdict`.  Its
default `createdAt: datetime = datetime.utcnow()` was evaluated once,
when the class was defined at module import: a construction that does
not pass `createdAt` receives the fixed `importTime`, not the clock
`now` current at the construction site. -/
def mainUniversity (importTime : Nat) (now : Nat) (name : String)
    (domain : Option String) (createdAt : Option Nat) : Doc :=
  [("name", .str name), ("domain", optVal domain),
   ("createdAt", .time (createdAt.getD importTime))]

/-- main.py `Club` dataclass through `asdict` (same fixed-at-import
`createdAt` default as `mainUniversity`). -/
def mainClubDoc (importTime : Nat) (now : Nat) (name : String)
    (universityId : Nat) (description : Option String)
    (createdAt : Option Nat) : Doc :=
  [("name", .str name), ("universityId", .ref universityId),
   ("description", optVal description), ("createdAt", .time (createdAt.getD importTime))]

/-- main.py `Person` dataclass through `asdict` (same fixed-at-import
`createdAt` default). -/
def mainPerson (importTime : Nat) (now : Nat) (name : String)
    (email studentId : Option String) (createdAt : Option Nat) : Doc :=
  [("name", .str name), ("email", optVal email),
   ("studentId", optVal studentId), ("createdAt", .time (createdAt.getD importTime))]

/-- main.py `Membership` dataclass through `asdict` (same
fixed-at-import `createdAt` default). -/
def mainMembershipDoc (importTime : Nat) (now : Nat) (personId : Nat)
    (role status : String) (title : Option String)
    (createdAt : Option Nat) : Doc :=
  [("personId", .ref personId), ("role", .str role), ("status", .str status),
   ("title", optVal title), ("createdAt", .time (createdAt.getD importTime))]

/-- The document store: the three top-level collections and the
`clubs/{clubId}/memberships` subcollections (flattened to triples),
each in insertion order, plus the id-generation counter. -/
structure Store where
  universities : List (Nat × Doc)
  clubs : List (Nat × Doc)
  people : List (Nat × Doc)
  memberships : List (Nat × Nat × Doc)
  nextId : Nat
deriving DecidableEq, Repr

/-- The empty store. -/
def emptyStore : Store := ⟨[], [], [], [], 0⟩

/-- Fetching a document by id from a collection
(`collection(c).document(i).get()`). -/
def lookupDoc (l : List (Nat × Doc)) (i : Nat) : Option Doc :=
  (l.find? (fun p => p.1 == i)).map (fun p => p.2)

/-- Firestore `update` on the document with id `i` in a collection. -/
def updateDocAt (l : List (Nat × Doc)) (i : Nat) (upd : List (String × Value)) :
    List (Nat × Doc) :=
  l.map (fun p => if p.1 == i then (p.1, mergeUpdate p.2 upd) else p)

/-- Firestore `delete` of the document with id `i` in a collection. -/
def removeDocAt (l : List (Nat × Doc)) (i : Nat) : List (Nat × Doc) :=
  l.filter (fun p => p.1 != i)

/-- The membership documents of one club, in the store's internal
insertion (creation) order.  This is the set a query over the
subcollection sees; the order in which
`club.reference.collection("memberships").stream()` actually returns
them is ascending document-id order, modelled by `streamMemberships`.
Row-wise theorems (joins, deletes) are order-independent and use this
set directly. -/
def clubMemberships (s : Store) (clubId : Nat) : List (Nat × Nat × Doc) :=
  s.memberships.filter (fun m => m.1 == clubId)

/-- Fetching one membership document under a club. -/
def lookupMembership (s : Store) (clubId memId : Nat) : Option Doc :=
  (s.memberships.find? (fun m => m.1 == clubId && m.2.1 == memId)).map (fun m => m.2.2)

/-- Firestore `update` on one membership document under a club. -/
def updateMemAt (ms : List (Nat × Nat × Doc)) (clubId memId : Nat)
    (upd : List (String × Value)) : List (Nat × Nat × Doc) :=
  ms.map (fun m =>
    if m.1 == clubId && m.2.1 == memId then (m.1, m.2.1, mergeUpdate m.2.2 upd) else m)

/-- Bytewise (code-point) comparison of character lists, the ascending
string order used by the store for `order_by`. -/
def charsLe : List Char → List Char → Bool
  | [], _ => true
  | _ :: _, [] => false
  | a :: as, b :: bs =>
    if a.toNat < b.toNat then true
    else if b.toNat < a.toNat then false
    else charsLe as bs

/-- Ascending string order for `order_by("name")`. -/
def strLe (a b : String) : Bool := charsLe a.data b.data

/-- The sort key of a `(id, doc)` entry under `order_by("name")`: its
`name` field (every document this system writes has a string name). -/
def nameKey (p : Nat × Doc) : String :=
  match getField p.2 "name" with
  | some (.str s) => s
  | _ => ""

/-- Comparison of collection entries by their `name` field. -/
def nameLe (p q : Nat × Doc) : Bool := strLe (nameKey p) (nameKey q)

/-- Insertion step of the model of `order_by("name")`. -/
def insertByName (x : Nat × Doc) : List (Nat × Doc) → List (Nat × Doc)
  | [] => [x]
  | y :: ys => if nameLe x y then x :: y :: ys else y :: insertByName x ys

/-- Model of `collection(c).order_by("name").stream()`: the collection
sorted ascending by the `name` field. -/
def orderByName : List (Nat × Doc) → List (Nat × Doc)
  | [] => []
  | x :: xs => insertByName x (orderByName xs)

/-- Outcome a front-end handler reports to the user (flash category in
app.py). -/
inductive Outcome where
  | ok
  | validationError
  | notFound
deriving DecidableEq, Repr

/-- A single-document path inside the store, as used by batch deletes. -/
inductive Path where
  | university (id : Nat)
  | club (id : Nat)
  | person (id : Nat)
  | membership (clubId : Nat) (id : Nat)
deriving DecidableEq, Repr

/-- Deleting the document at one path (`batch.delete(ref)` target). -/
def deletePath (s : Store) : Path → Store
  | .university i => { s with universities := removeDocAt s.universities i }
  | .club i => { s with clubs := removeDocAt s.clubs i }
  | .person i => { s with people := removeDocAt s.people i }
  | .membership c i =>
    { s with memberships := s.memberships.filter (fun m => !(m.1 == c && m.2.1 == i)) }

/-- Committing a write batch (`db.batch()` … `batch.commit()`): the
whole list of deletes is applied as one indivisible store transition. -/
def commitBatch (s : Store) (b : List Path) : Store := b.foldl deletePath s

/-- The batch assembled by `delete_club` in both front-ends: every
document of the club's `memberships` subcollection, then the club
document itself. -/
def deleteClubBatch (s : Store) (clubId : Nat) : List Path :=
  (clubMemberships s clubId).map (fun m => Path.membership m.1 m.2.1) ++ [Path.club clubId]

/-- app.py `create_university` (POST): strip the form fields, reject an
empty name before any store call, otherwise insert the new document. -/
def appCreateUniversity (now : Nat) (s : Store) (nameForm domainForm : String) :
    Outcome × Store :=
  let name := pyStrip nameForm
  let domain := pyOrNone (pyStrip domainForm)
  if name = "" then (.validationError, s)
  else (.ok, { s with
    universities := s.universities ++ [(s.nextId, appUniversity now name domain none)],
    nextId := s.nextId + 1 })

/-- app.py `edit_university` (POST): not-found redirect if the id does
not exist, validation error on an empty stripped name, otherwise
`update` of exactly the `name` and `domain` fields (a blank domain is
stored as null via `… or None`). -/
def appEditUniversity (s : Store) (uid : Nat) (nameForm domainForm : String) :
    Outcome × Store :=
  match lookupDoc s.universities uid with
  | none => (.notFound, s)
  | some _ =>
    let name := pyStrip nameForm
    let domain := pyOrNone (pyStrip domainForm)
    if name = "" then (.validationError, s)
    else (.ok, { s with
      universities := updateDocAt s.universities uid
        [("name", .str name), ("domain", optVal domain)] })

/-- app.py `delete_university`: plain single-document delete, no
cascade to clubs. -/
def appDeleteUniversity (s : Store) (uid : Nat) : Outcome × Store :=
  match lookupDoc s.universities uid with
  | none => (.notFound, s)
  | some _ => (.ok, { s with universities := removeDocAt s.universities uid })

/-- app.py `create_club` (POST): the university is chosen in a select
box (`none` models an empty selection); name and university are
required, description is optional. -/
def appCreateClub (now : Nat) (s : Store) (nameForm : String)
    (universityIdSel : Option Nat) (descriptionForm : String) : Outcome × Store :=
  let name := pyStrip nameForm
  let description := pyOrNone (pyStrip descriptionForm)
  if name = "" || universityIdSel = none then (.validationError, s)
  else
    match universityIdSel with
    | none => (.validationError, s)
    | some uid =>
      (.ok, { s with
        clubs := s.clubs ++ [(s.nextId, appClubDoc now name uid description none)],
        nextId := s.nextId + 1 })

/-- app.py `edit_club` (POST): `update` of exactly `name` and
`description`. -/
def appEditClub (s : Store) (cid : Nat) (nameForm descriptionForm : String) :
    Outcome × Store :=
  match lookupDoc s.clubs cid with
  | none => (.notFound, s)
  | some _ =>
    let name := pyStrip nameForm
    let description := pyOrNone (pyStrip descriptionForm)
    if name = "" then (.validationError, s)
    else (.ok, { s with
      clubs := updateDocAt s.clubs cid
        [("name", .str name), ("description", optVal description)] })

/-- app.py `delete_club`: if the club exists, assemble one batch of
every membership document plus the club document and commit it as a
single atomic write batch. -/
def appDeleteClub (s : Store) (clubId : Nat) : Outcome × Store :=
  match lookupDoc s.clubs clubId with
  | none => (.notFound, s)
  | some _ => (.ok, commitBatch s (deleteClubBatch s clubId))

/-- app.py `create_person` (POST). -/
def appCreatePerson (now : Nat) (s : Store) (nameForm emailForm studentIdForm : String) :
    Outcome × Store :=
  let name := pyStrip nameForm
  let email := pyOrNone (pyStrip emailForm)
  let studentId := pyOrNone (pyStrip studentIdForm)
  if name = "" then (.validationError, s)
  else (.ok, { s with
    people := s.people ++ [(s.nextId, appPerson now name email studentId none)],
    nextId := s.nextId + 1 })

/-- app.py `edit_person` (POST): `update` of exactly `name`, `email`
and `studentId`. -/
def appEditPerson (s : Store) (pid : Nat) (nameForm emailForm studentIdForm : String) :
    Outcome × Store :=
  match lookupDoc s.people pid with
  | none => (.notFound, s)
  | some _ =>
    let name := pyStrip nameForm
    let email := pyOrNone (pyStrip emailForm)
    let studentId := pyOrNone (pyStrip studentIdForm)
    if name = "" then (.validationError, s)
    else (.ok, { s with
      people := updateDocAt s.people pid
        [("name", .str name), ("email", optVal email), ("studentId", optVal studentId)] })

/-- app.py `delete_person`: plain single-document delete, no cascade
to memberships. -/
def appDeletePerson (s : Store) (pid : Nat) : Outcome × Store :=
  match lookupDoc s.people pid with
  | none => (.notFound, s)
  | some _ => (.ok, { s with people := removeDocAt s.people pid })

/-- app.py `add_member` (POST): club existence is checked first; a
blank person selection is a validation error; role and status default
when the form sends the empty string (no stripping in the source);
title is stripped with blank becoming `None`. -/
def appAddMember (now : Nat) (s : Store) (clubId : Nat) (personIdSel : Option Nat)
    (roleForm statusForm titleForm : String) : Outcome × Store :=
  match lookupDoc s.clubs clubId with
  | none => (.notFound, s)
  | some _ =>
    match personIdSel with
    | none => (.validationError, s)
    | some pid =>
      let role := if roleForm = "" then "member" else roleForm
      let status := if statusForm = "" then "active" else statusForm
      let title := pyOrNone (pyStrip titleForm)
      (.ok, { s with
        memberships := s.memberships ++
          [(clubId, s.nextId, appMembershipDoc now pid role status title none)],
        nextId := s.nextId + 1 })

/-- app.py `edit_member` (POST): `update` of exactly `role`, `status`
and `title` on the membership document. -/
def appEditMember (s : Store) (clubId memId : Nat)
    (roleForm statusForm titleForm : String) : Outcome × Store :=
  match lookupDoc s.clubs clubId with
  | none => (.notFound, s)
  | some _ =>
    match lookupMembership s clubId memId with
    | none => (.notFound, s)
    | some _ =>
      let role := if roleForm = "" then "member" else roleForm
      let status := if statusForm = "" then "active" else statusForm
      let title := pyOrNone (pyStrip titleForm)
      (.ok, { s with
        memberships := updateMemAt s.memberships clubId memId
          [("role", .str role), ("status", .str status), ("title", optVal title)] })

/-- app.py `universities` listing: the collection ordered by name. -/
def appUniversities (s : Store) : List (Nat × Doc) := orderByName s.universities

/-- app.py `people` listing: the collection ordered by name. -/
def appPeople (s : Store) : List (Nat × Doc) := orderByName s.people

/-- One row of the app.py `clubs` listing, with its display join. -/
structure ClubRow where
  id : Nat
  doc : Doc
  universityName : Value
deriving DecidableEq, Repr

/-- The per-club enrichment in app.py `clubs`: fetch the referenced
university and take `to_dict().get('name', 'Unknown')` when it exists,
the literal placeholder `"Unknown"` when it does not. -/
def appClubRow (s : Store) (p : Nat × Doc) : ClubRow :=
  { id := p.1, doc := p.2,
    universityName :=
      match getField p.2 "universityId" with
      | some (.ref uid) =>
        match lookupDoc s.universities uid with
        | some ud => pyGet ud "name" (.str "Unknown")
        | none => .str "Unknown"
      | _ => .str "Unknown" }

/-- app.py `clubs` listing: the clubs ordered by name, each enriched
with the resolved university name. -/
def appClubs (s : Store) : List ClubRow :=
  (orderByName s.clubs).map (appClubRow s)

/-- One row of the app.py `club_members` listing, with its display
joins. -/
structure MemberRow where
  id : Nat
  doc : Doc
  personName : Value
  personEmail : Value
deriving DecidableEq, Repr

/-- The per-membership enrichment in app.py `club_members`: fetch the
referenced person; `personName` is `to_dict().get('name', 'Unknown')`
or the placeholder `"Unknown"` for a missing person, while
`personEmail` is `to_dict().get('email', '')` or the empty string for
a missing person. -/
def appMemberRow (s : Store) (m : Nat × Nat × Doc) : MemberRow :=
  let person :=
    match getField m.2.2 "personId" with
    | some (.ref pid) => lookupDoc s.people pid
    | _ => none
  { id := m.2.1, doc := m.2.2,
    personName :=
      match person with
      | some pd => pyGet pd "name" (.str "Unknown")
      | none => .str "Unknown",
    personEmail :=
      match person with
      | some pd => pyGet pd "email" (.str "")
      | none => .str "" }

/-- app.py `club_members`: not-found redirect for a missing club,
otherwise the club's membership subcollection in stored order, each
row enriched with the person joins. -/
def appClubMembers (s : Store) (clubId : Nat) : Option (List MemberRow) :=
  match lookupDoc s.clubs clubId with
  | none => none
  | some _ => some ((clubMemberships s clubId).map (appMemberRow s))

/-- Sequencing of fallible per-row actions, modelling a Python for
loop whose body may raise: the first raised exception aborts the
loop. -/
def mapExcept (f : α → Except String β) : List α → Except String (List β)
  | [] => .ok []
  | a :: l =>
    match f a with
    | .error e => .error e
    | .ok b =>
      match mapExcept f l with
      | .error e => .error e
      | .ok bs => .ok (b :: bs)

/-- One printed line of main.py `list_club_members`: the expression
`person.to_dict().get('name','?')` raises `AttributeError` when the
referenced person does not exist (`to_dict()` is `None` for a missing
snapshot), and `md["personId"]` raises `KeyError` when the membership
has no `personId` field. -/
def mainMemberLine (s : Store) (m : Nat × Nat × Doc) : Except String Value :=
  match getField m.2.2 "personId" with
  | some (.ref pid) =>
    match lookupDoc s.people pid with
    | none => .error "AttributeError"
    | some pd => .ok (pyGet pd "name" (.str "?"))
  | _ => .error "KeyError"

/-- main.py `list_club_members`: stream the club's memberships (empty
for a nonexistent club id) and print one line per membership, raising
on a dangling person reference. -/
def mainListClubMembers (s : Store) (clubId : Nat) : Except String (List Value) :=
  mapExcept (mainMemberLine s) (clubMemberships s clubId)

/-- main.py `create_university`: strip the inputs and insert — there is
no validation of the (possibly empty) name before the write. -/
def mainCreateUniversity (importTime now : Nat) (s : Store)
    (nameInput domainInput : String) : Store :=
  let name := pyStrip nameInput
  let domain := pyOrNone (pyStrip domainInput)
  { s with
    universities := s.universities ++
      [(s.nextId, mainUniversity importTime now name domain none)],
    nextId := s.nextId + 1 }

/-- main.py `create_person`: strip the inputs and insert — no
validation of the name before the write. -/
def mainCreatePerson (importTime now : Nat) (s : Store)
    (nameInput emailInput studentIdInput : String) : Store :=
  let name := pyStrip nameInput
  let email := pyOrNone (pyStrip emailInput)
  let studentId := pyOrNone (pyStrip studentIdInput)
  { s with
    people := s.people ++
      [(s.nextId, mainPerson importTime now name email studentId none)],
    nextId := s.nextId + 1 }

/-- main.py `update_university` on the chosen document (`_choose`
returning no document cancels the operation): each field is
`input().strip() or data.get(key)` — blank input keeps the stored
value — and the update touches exactly `name` and `domain`. -/
def mainUpdateUniversity (s : Store) (uid : Nat) (nameInput domainInput : String) :
    Store :=
  match lookupDoc s.universities uid with
  | none => s
  | some d =>
    let newName := pyOrValue (pyStrip nameInput) (pyGet d "name" .null)
    let newDomain := pyOrValue (pyStrip domainInput) (pyGet d "domain" .null)
    { s with
      universities := updateDocAt s.universities uid
        [("name", newName), ("domain", newDomain)] }

/-- main.py `update_club`: blank-keeps semantics on `name` and
`description`. -/
def mainUpdateClub (s : Store) (cid : Nat) (nameInput descInput : String) : Store :=
  match lookupDoc s.clubs cid with
  | none => s
  | some d =>
    let newName := pyOrValue (pyStrip nameInput) (pyGet d "name" .null)
    let newDesc := pyOrValue (pyStrip descInput) (pyGet d "description" .null)
    { s with
      clubs := updateDocAt s.clubs cid
        [("name", newName), ("description", newDesc)] }

/-- main.py `update_person`: blank-keeps semantics on `name`, `email`
and `studentId`. -/
def mainUpdatePerson (s : Store) (pid : Nat)
    (nameInput emailInput studentIdInput : String) : Store :=
  match lookupDoc s.people pid with
  | none => s
  | some d =>
    let newName := pyOrValue (pyStrip nameInput) (pyGet d "name" .null)
    let newEmail := pyOrValue (pyStrip emailInput) (pyGet d "email" .null)
    let newSid := pyOrValue (pyStrip studentIdInput) (pyGet d "studentId" .null)
    { s with
      people := updateDocAt s.people pid
        [("name", newName), ("email", newEmail), ("studentId", newSid)] }

/-- main.py `update_membership`: blank-keeps semantics on `role`,
`status` and `title` of the chosen membership. -/
def mainUpdateMembership (s : Store) (clubId memId : Nat)
    (roleInput statusInput titleInput : String) : Store :=
  match lookupMembership s clubId memId with
  | none => s
  | some d =>
    let newRole := pyOrValue (pyStrip roleInput) (pyGet d "role" .null)
    let newStatus := pyOrValue (pyStrip statusInput) (pyGet d "status" .null)
    let newTitle := pyOrValue (pyStrip titleInput) (pyGet d "title" .null)
    { s with
      memberships := updateMemAt s.memberships clubId memId
        [("role", newRole), ("status", newStatus), ("title", newTitle)] }

/-- main.py `delete_university`: single delete of the chosen document
after the textual confirmation, no cascade. -/
def mainDeleteUniversity (s : Store) (uid : Nat) (confirmInput : String) : Store :=
  match lookupDoc s.universities uid with
  | none => s
  | some _ =>
    if pyStrip confirmInput = "DELETE" then
      { s with universities := removeDocAt s.universities uid }
    else s

/-- main.py `delete_person`: single delete after confirmation, no
cascade to memberships. -/
def mainDeletePerson (s : Store) (pid : Nat) (confirmInput : String) : Store :=
  match lookupDoc s.people pid with
  | none => s
  | some _ =>
    if pyStrip confirmInput = "DELETE" then
      { s with people := removeDocAt s.people pid }
    else s

/-- main.py `delete_club`: after confirmation, assemble the same
memberships-plus-club batch as the web front-end and commit it
atomically. -/
def mainDeleteClub (s : Store) (clubId : Nat) (confirmInput : String) : Store :=
  match lookupDoc s.clubs clubId with
  | none => s
  | some _ =>
    if pyStrip confirmInput = "DELETE" then commitBatch s (deleteClubBatch s clubId)
    else s

/-- Total number of documents held by the store. -/
def docCount (s : Store) : Nat :=
  s.universities.length + s.clubs.length + s.people.length + s.memberships.length

/-- Reading back the field just written by `setField`. -/
theorem getField_setField_same (d : Doc) (k : String) (v : Value) :
    getField (setField d k v) k = some v := by
  induction d with
  | nil => simp [setField, getField]
  | cons p t ih =>
    by_cases h : p.1 = k
    · simp [setField, h, getField]
    · simpa [setField, h, getField] using ih

/-- `setField` leaves every other field unchanged. -/
theorem getField_setField_ne (d : Doc) (k k' : String) (v : Value) (h : k' ≠ k) :
    getField (setField d k v) k' = getField d k' := by
  induction d with
  | nil => simp [setField, getField, Ne.symm h]
  | cons p t ih =>
    by_cases hp : p.1 = k
    · simp [setField, hp, getField, Ne.symm h, hp ▸ Ne.symm h]
    · by_cases hp' : p.1 = k'
      · simp [setField, hp, getField, hp', h]
      · simpa [setField, hp, getField, hp', h] using ih

/-- A merge whose update does not mention field `k` leaves `k`
unchanged. -/
theorem getField_mergeUpdate_of_not_mem (d : Doc) (upd : List (String × Value))
    (k : String) (h : ∀ kv ∈ upd, kv.1 ≠ k) :
    getField (mergeUpdate d upd) k = getField d k := by
  induction upd generalizing d with
  | nil => rfl
  | cons kv t ih =>
    have h1 : kv.1 ≠ k := h kv (by simp)
    have h2 : ∀ x ∈ t, x.1 ≠ k := fun x hx => h x (by simp [hx])
    calc getField (mergeUpdate d (kv :: t)) k
        = getField (mergeUpdate (setField d kv.1 kv.2) t) k := rfl
      _ = getField (setField d kv.1 kv.2) k := ih _ h2
      _ = getField d k := getField_setField_ne _ _ _ _ (Ne.symm h1)

/-- Looking up the updated document returns the merged document. -/
theorem lookupDoc_updateDocAt_self (l : List (Nat × Doc)) (i : Nat)
    (upd : List (String × Value)) :
    lookupDoc (updateDocAt l i upd) i =
      (lookupDoc l i).map (fun d => mergeUpdate d upd) := by
  induction l with
  | nil => rfl
  | cons p t ih =>
    by_cases h : p.1 = i
    · have hb : (p.1 == i) = true := by simp [h]
      have e1 : updateDocAt (p :: t) i upd =
          (p.1, mergeUpdate p.2 upd) :: updateDocAt t i upd := by
        unfold updateDocAt
        rw [List.map_cons]
        congr 1
        simp [hb]
      rw [e1]
      unfold lookupDoc
      rw [List.find?_cons_of_pos (p := fun q : Nat × Doc => q.1 == i)
        (a := (p.1, mergeUpdate p.2 upd)) _ hb]
      rw [List.find?_cons_of_pos (p := fun q : Nat × Doc => q.1 == i) (a := p) _ hb]
      rfl
    · have hb : (p.1 == i) = false := by simp [h]
      have e1 : updateDocAt (p :: t) i upd = p :: updateDocAt t i upd := by
        unfold updateDocAt
        rw [List.map_cons]
        congr 1
        simp [hb]
      rw [e1]
      unfold lookupDoc at ih ⊢
      rw [List.find?_cons_of_neg (p := fun q : Nat × Doc => q.1 == i) _ (by simp [hb])]
      rw [List.find?_cons_of_neg (p := fun q : Nat × Doc => q.1 == i) _ (by simp [hb])]
      exact ih

/-- `updateDocAt` changes no document id. -/
theorem updateDocAt_map_fst (l : List (Nat × Doc)) (i : Nat)
    (upd : List (String × Value)) :
    (updateDocAt l i upd).map Prod.fst = l.map Prod.fst := by
  unfold updateDocAt
  rw [List.map_map]
  refine List.map_congr_left ?_
  intro x _
  by_cases h : x.1 = i <;> simp [Function.comp, h]

/-- Every document survives an `updateDocAt` under its own id, with
any field the update does not mention intact. -/
theorem updateDocAt_preserves (l : List (Nat × Doc)) (i : Nat)
    (upd : List (String × Value)) (k : String) (hk : ∀ kv ∈ upd, kv.1 ≠ k)
    (j : Nat) (d : Doc) (h : (j, d) ∈ l) :
    ∃ d', (j, d') ∈ updateDocAt l i upd ∧ getField d' k = getField d k := by
  by_cases hji : j = i
  · exact ⟨mergeUpdate d upd,
      List.mem_map.mpr ⟨(j, d), h, by simp [hji]⟩,
      getField_mergeUpdate_of_not_mem _ _ _ hk⟩
  · exact ⟨d, List.mem_map.mpr ⟨(j, d), h, by simp [hji]⟩, rfl⟩

/-- `updateMemAt` changes no membership key (club id, membership id). -/
theorem updateMemAt_map_fst (ms : List (Nat × Nat × Doc)) (c m : Nat)
    (upd : List (String × Value)) :
    (updateMemAt ms c m upd).map (fun x => (x.1, x.2.1)) =
      ms.map (fun x => (x.1, x.2.1)) := by
  unfold updateMemAt
  rw [List.map_map]
  refine List.map_congr_left ?_
  intro x _
  by_cases h : (x.1 == c && x.2.1 == m) = true <;> simp [Function.comp, h]

/-- Every membership survives an `updateMemAt` under its own key, with
any field the update does not mention intact. -/
theorem updateMemAt_preserves (ms : List (Nat × Nat × Doc)) (cI mI : Nat)
    (upd : List (String × Value)) (k : String) (hk : ∀ kv ∈ upd, kv.1 ≠ k)
    (c j : Nat) (d : Doc) (h : (c, j, d) ∈ ms) :
    ∃ d', (c, j, d') ∈ updateMemAt ms cI mI upd ∧ getField d' k = getField d k := by
  by_cases hji : c = cI ∧ j = mI
  · exact ⟨mergeUpdate d upd,
      List.mem_map.mpr ⟨(c, j, d), h, by simp [hji.1, hji.2]⟩,
      getField_mergeUpdate_of_not_mem _ _ _ hk⟩
  · refine ⟨d, List.mem_map.mpr ⟨(c, j, d), h, ?_⟩, rfl⟩
    have : (c == cI && j == mI) = false := by
      rcases not_and_or.mp hji with h1 | h1 <;> simp [h1]
    simp [this]

/-- A deleted document can no longer be looked up. -/
theorem lookupDoc_removeDocAt_self (l : List (Nat × Doc)) (i : Nat) :
    lookupDoc (removeDocAt l i) i = none := by
  induction l with
  | nil => rfl
  | cons p t ih =>
    by_cases hp : p.1 = i
    · have e : removeDocAt (p :: t) i = removeDocAt t i := by
        simp [removeDocAt, List.filter_cons, hp]
      rw [e]; exact ih
    · have e : removeDocAt (p :: t) i = p :: removeDocAt t i := by
        simp [removeDocAt, List.filter_cons, hp]
      rw [e]
      unfold lookupDoc at ih ⊢
      rw [List.find?_cons_of_neg (a := p) _ (by simp [hp])]
      exact ih

/-- Deleting one document leaves every other lookup unchanged. -/
theorem lookupDoc_removeDocAt_ne (l : List (Nat × Doc)) (i j : Nat) (h : j ≠ i) :
    lookupDoc (removeDocAt l i) j = lookupDoc l j := by
  induction l with
  | nil => rfl
  | cons p t ih =>
    by_cases hp : p.1 = i
    · have e : removeDocAt (p :: t) i = removeDocAt t i := by
        simp [removeDocAt, List.filter_cons, hp]
      rw [e]
      unfold lookupDoc at ih ⊢
      rw [List.find?_cons_of_neg (a := p) _ (by simp [hp, Ne.symm h])]
      exact ih
    · have e : removeDocAt (p :: t) i = p :: removeDocAt t i := by
        simp [removeDocAt, List.filter_cons, hp]
      rw [e]
      by_cases hpj : p.1 = j
      · unfold lookupDoc
        rw [List.find?_cons_of_pos (a := p) _ (by simp [hpj]),
          List.find?_cons_of_pos (a := p) _ (by simp [hpj])]
      · unfold lookupDoc at ih ⊢
        rw [List.find?_cons_of_neg (a := p) _ (by simp [hpj]),
          List.find?_cons_of_neg (a := p) _ (by simp [hpj])]
        exact ih

/-- The bytewise string order is total. -/
theorem charsLe_total (a : List Char) : ∀ b, charsLe a b = true ∨ charsLe b a = true := by
  induction a with
  | nil => intro b; left; rfl
  | cons x xs ih =>
    intro b
    cases b with
    | nil => right; rfl
    | cons y ys =>
      by_cases h1 : x.toNat < y.toNat
      · left; simp [charsLe, h1]
      · by_cases h2 : y.toNat < x.toNat
        · right; simp [charsLe, h2]
        · rcases ih ys with h | h
          · left; simp [charsLe, h1, h2, h]
          · right; simp [charsLe, h1, h2, h]

/-- The bytewise string order is transitive. -/
theorem charsLe_trans (a : List Char) : ∀ b c, charsLe a b = true →
    charsLe b c = true → charsLe a c = true := by
  induction a with
  | nil => intro b c _ _; rfl
  | cons x xs ih =>
    intro b c hab hbc
    cases b with
    | nil => simp [charsLe] at hab
    | cons y ys =>
      cases c with
      | nil => simp [charsLe] at hbc
      | cons z zs =>
        simp only [charsLe] at hab hbc ⊢
        by_cases hxy : x.toNat < y.toNat
        · by_cases hyz : y.toNat < z.toNat
          · simp [show x.toNat < z.toNat by omega]
          · by_cases hzy : z.toNat < y.toNat
            · simp [hyz, hzy] at hbc
            · simp [show x.toNat < z.toNat by omega]
        · by_cases hyx : y.toNat < x.toNat
          · simp [hxy, hyx] at hab
          · have hxs : charsLe xs ys = true := by simpa [hxy, hyx] using hab
            by_cases hyz : y.toNat < z.toNat
            · simp [show x.toNat < z.toNat by omega]
            · by_cases hzy : z.toNat < y.toNat
              · simp [hyz, hzy] at hbc
              · have hys : charsLe ys zs = true := by simpa [hyz, hzy] using hbc
                have hxz1 : ¬ x.toNat < z.toNat := by omega
                have hxz2 : ¬ z.toNat < x.toNat := by omega
                simp [hxz1, hxz2, ih ys zs hxs hys]

/-- Totality of `nameLe`. -/
theorem nameLe_total (p q : Nat × Doc) : nameLe p q = true ∨ nameLe q p = true :=
  charsLe_total (nameKey p).data (nameKey q).data

/-- Transitivity of `nameLe`. -/
theorem nameLe_trans (p q r : Nat × Doc) (h1 : nameLe p q = true)
    (h2 : nameLe q r = true) : nameLe p r = true :=
  charsLe_trans (nameKey p).data (nameKey q).data (nameKey r).data h1 h2

/-- Inserting into the sorted list is a permutation of consing. -/
theorem insertByName_perm (x : Nat × Doc) (l : List (Nat × Doc)) :
    (insertByName x l).Perm (x :: l) := by
  induction l with
  | nil => exact List.Perm.refl _
  | cons y ys ih =>
    by_cases h : nameLe x y = true
    · simp [insertByName, h]
    · simp only [insertByName, if_neg h]
      exact (ih.cons y).trans (List.Perm.swap x y ys)

/-- The model of `order_by("name")` returns a permutation of the
collection. -/
theorem orderByName_perm (l : List (Nat × Doc)) : (orderByName l).Perm l := by
  induction l with
  | nil => exact List.Perm.refl _
  | cons x xs ih => exact (insertByName_perm x (orderByName xs)).trans (ih.cons x)

/-- Inserting into a sorted list keeps it sorted. -/
theorem insertByName_pairwise (x : Nat × Doc) (l : List (Nat × Doc))
    (h : l.Pairwise (fun a b => nameLe a b = true)) :
    (insertByName x l).Pairwise (fun a b => nameLe a b = true) := by
  induction l with
  | nil => simp [insertByName]
  | cons y ys ih =>
    rcases List.pairwise_cons.mp h with ⟨hy, hys⟩
    by_cases hxy : nameLe x y = true
    · simp only [insertByName, if_pos hxy]
      refine List.pairwise_cons.mpr ⟨?_, h⟩
      intro b hb
      rcases List.mem_cons.mp hb with rfl | hb2
      · exact hxy
      · exact nameLe_trans x y b hxy (hy b hb2)
    · have hyx : nameLe y x = true := by
        rcases nameLe_total x y with hh | hh
        · exact absurd hh hxy
        · exact hh
      simp only [insertByName, if_neg hxy]
      refine List.pairwise_cons.mpr ⟨?_, ih hys⟩
      intro b hb
      have hb2 : b = x ∨ b ∈ ys := by
        simpa using (insertByName_perm x ys).mem_iff.mp hb
      rcases hb2 with rfl | hb3
      · exact hyx
      · exact hy b hb3

/-- The model of `order_by("name")` is sorted ascending by name. -/
theorem orderByName_pairwise (l : List (Nat × Doc)) :
    (orderByName l).Pairwise (fun a b => nameLe a b = true) := by
  induction l with
  | nil => simp [orderByName]
  | cons x xs ih => exact insertByName_pairwise x (orderByName xs) ih

/-- A filter and its complement split the length of a list. -/
theorem length_filter_split (p : α → Bool) (l : List α) :
    (l.filter p).length + (l.filter (fun a => !(p a))).length = l.length := by
  induction l with
  | nil => rfl
  | cons a t ih =>
    cases h : p a <;> simp [List.filter_cons, h] <;> omega

/-- Under unique ids, the documents carrying a present id are exactly
one. -/
theorem length_filter_key_eq_one (l : List (Nat × Doc)) (i : Nat) (d : Doc)
    (hnd : (l.map Prod.fst).Nodup) (hmem : (i, d) ∈ l) :
    (l.filter (fun p => p.1 == i)).length = 1 := by
  induction l with
  | nil => cases hmem
  | cons a t ih =>
    have hnd2 : (a.1 :: t.map Prod.fst).Nodup := by rw [List.map_cons] at hnd; exact hnd
    have hnd' := List.nodup_cons.mp hnd2
    rcases List.mem_cons.mp hmem with rfl | hmem'
    · have hrest : t.filter (fun p => p.1 == i) = [] := by
        refine List.filter_eq_nil_iff.mpr ?_
        intro x hx
        simp only [beq_iff_eq]
        intro hxi
        exact hnd'.1 (List.mem_map.mpr ⟨x, hx, hxi⟩)
      simp [List.filter_cons, hrest]
    · have hai : ¬ a.1 = i := by
        intro hc
        exact hnd'.1 (List.mem_map.mpr ⟨(i, d), hmem', by simp [hc]⟩)
      have e : (a :: t).filter (fun p => p.1 == i) = t.filter (fun p => p.1 == i) := by
        simp [List.filter_cons, hai]
      rw [e]
      exact ih hnd'.2 hmem'

/-- Committing a concatenation of two batches composes. -/
theorem commitBatch_append (s : Store) (b1 b2 : List Path) :
    commitBatch s (b1 ++ b2) = commitBatch (commitBatch s b1) b2 := by
  simp [commitBatch, List.foldl_append]

/-- The effect of committing a batch of membership deletes: the other
collections are untouched and exactly the listed membership documents
are removed. -/
theorem commitBatch_memPaths (ps : List (Nat × Nat × Doc)) (s : Store) :
    (commitBatch s (ps.map (fun m => Path.membership m.1 m.2.1))).universities =
        s.universities ∧
    (commitBatch s (ps.map (fun m => Path.membership m.1 m.2.1))).clubs = s.clubs ∧
    (commitBatch s (ps.map (fun m => Path.membership m.1 m.2.1))).people = s.people ∧
    (commitBatch s (ps.map (fun m => Path.membership m.1 m.2.1))).nextId = s.nextId ∧
    (commitBatch s (ps.map (fun m => Path.membership m.1 m.2.1))).memberships =
      s.memberships.filter
        (fun m => ps.all (fun q => !(m.1 == q.1 && m.2.1 == q.2.1))) := by
  induction ps generalizing s with
  | nil =>
    refine ⟨rfl, rfl, rfl, rfl, ?_⟩
    simp [commitBatch]
  | cons q qs ih =>
    have step : commitBatch s ((q :: qs).map (fun m => Path.membership m.1 m.2.1)) =
        commitBatch (deletePath s (Path.membership q.1 q.2.1))
          (qs.map (fun m => Path.membership m.1 m.2.1)) := rfl
    rw [step]
    obtain ⟨hu, hc, hp, hn, hm⟩ := ih (deletePath s (Path.membership q.1 q.2.1))
    refine ⟨by rw [hu]; rfl, by rw [hc]; rfl, by rw [hp]; rfl, by rw [hn]; rfl, ?_⟩
    rw [hm]
    show (s.memberships.filter (fun m => !(m.1 == q.1 && m.2.1 == q.2.1))).filter
        (fun m => qs.all (fun r => !(m.1 == r.1 && m.2.1 == r.2.1))) = _
    rw [List.filter_filter]
    refine List.filter_congr ?_
    intro m _
    simp only [List.all_cons]
    exact Bool.and_comm _ _

/-- The effect of the `delete_club` batch on an arbitrary store:
universities and people are untouched, the club is removed, and
exactly the memberships of that club are removed. -/
theorem deleteClubEffect (s : Store) (cid : Nat) :
    (commitBatch s (deleteClubBatch s cid)).universities = s.universities ∧
    (commitBatch s (deleteClubBatch s cid)).people = s.people ∧
    (commitBatch s (deleteClubBatch s cid)).nextId = s.nextId ∧
    (commitBatch s (deleteClubBatch s cid)).clubs = removeDocAt s.clubs cid ∧
    (commitBatch s (deleteClubBatch s cid)).memberships =
      s.memberships.filter (fun m => m.1 != cid) := by
  unfold deleteClubBatch
  rw [commitBatch_append]
  obtain ⟨hu, hc, hp, hn, hm⟩ := commitBatch_memPaths (clubMemberships s cid) s
  have step : ∀ w : Store, commitBatch w [Path.club cid] =
      { w with clubs := removeDocAt w.clubs cid } := fun w => rfl
  rw [step]
  refine ⟨hu, hp, hn, by rw [hc], ?_⟩
  rw [hm]
  refine List.filter_congr ?_
  intro m hmem
  show ((clubMemberships s cid).all fun q => !(m.1 == q.1 && m.2.1 == q.2.1)) =
    (m.1 != cid)
  by_cases h : m.1 = cid
  · have hin : m ∈ clubMemberships s cid := List.mem_filter.mpr ⟨hmem, by simp [h]⟩
    have hfalse : ((clubMemberships s cid).all
        (fun q => !(m.1 == q.1 && m.2.1 == q.2.1))) = false := by
      apply Bool.eq_false_iff.mpr
      intro hall
      have := List.all_eq_true.mp hall m hin
      simp at this
    rw [hfalse]
    simp [h]
  · have htrue : ((clubMemberships s cid).all
        (fun q => !(m.1 == q.1 && m.2.1 == q.2.1))) = true := by
      refine List.all_eq_true.mpr ?_
      intro q hq
      have hq1 : q.1 = cid := by simpa using (List.mem_filter.mp hq).2
      have hb : (m.1 == q.1) = false := by simp [hq1, h]
      simp [hb]
    rw [htrue]
    simp [h]

/-- If some element of the list makes the loop body raise, the whole
loop raises. -/
theorem mapExcept_error_of_mem (f : α → Except String β) (l : List α) (a : α)
    (ha : a ∈ l) (e : String) (hf : f a = .error e) :
    ∃ e2, mapExcept f l = .error e2 := by
  induction l with
  | nil => cases ha
  | cons x t ih =>
    rcases List.mem_cons.mp ha with rfl | ha'
    · exact ⟨e, by simp [mapExcept, hf]⟩
    · cases hx : f x with
      | error e3 => exact ⟨e3, by simp [mapExcept, hx]⟩
      | ok b =>
        rcases ih ha' with ⟨e4, he4⟩
        exact ⟨e4, by simp [mapExcept, hx, he4]⟩

/-- A successful lookup means the pair is in the collection. -/
theorem mem_of_lookupDoc (l : List (Nat × Doc)) (i : Nat) (d : Doc)
    (h : lookupDoc l i = some d) : (i, d) ∈ l := by
  unfold lookupDoc at h
  rcases Option.map_eq_some'.mp h with ⟨p, hfind, hp2⟩
  have hmem := List.mem_of_find?_eq_some hfind
  have hpred := List.find?_some hfind
  have hp1 : p.1 = i := by simpa using hpred
  have : p = (i, d) := by
    cases p
    simp only at hp1 hp2
    rw [hp1, hp2]
  rw [this] at hmem
  exact hmem

/-- Under unique ids, deleting a present document shrinks the
collection by exactly one. -/
theorem removeDocAt_length (l : List (Nat × Doc)) (i : Nat) (d : Doc)
    (hnd : (l.map Prod.fst).Nodup) (hmem : (i, d) ∈ l) :
    (removeDocAt l i).length + 1 = l.length := by
  have h1 := length_filter_split (fun p => p.1 == i) l
  have h2 := length_filter_key_eq_one l i d hnd hmem
  have e : removeDocAt l i = l.filter (fun a => !(a.1 == i)) := rfl
  rw [e]
  omega

/-- Removing one club's memberships shrinks the subcollection pool by
exactly the size of that subcollection. -/
theorem memberships_filter_length (ms : List (Nat × Nat × Doc)) (cid : Nat) :
    (ms.filter (fun m => m.1 != cid)).length +
      (ms.filter (fun m => m.1 == cid)).length = ms.length := by
  have h1 := length_filter_split (fun m : Nat × Nat × Doc => m.1 == cid) ms
  have e : ms.filter (fun m => m.1 != cid) =
      ms.filter (fun m : Nat × Nat × Doc => !(m.1 == cid)) := rfl
  rw [e]
  omega

/-- A concrete store: one university, one club (id 1) of that
university with two memberships (ids 2 and 3) of person 10. -/
def W1 : Store :=
  ⟨[(0, appUniversity 5 "UTA" (some "uta.edu") none)],
   [(1, appClubDoc 6 "Chess Club" 0 none none)],
   [(10, appPerson 7 "Ada" (some "ada@uta.edu") (some "123") none)],
   [(1, 2, appMembershipDoc 8 10 "officer" "active" (some "VP") none),
    (1, 3, appMembershipDoc 9 10 "member" "active" none none)],
   11⟩

/-- Claim C1: deleting a Club with N membership documents removes exactly
N+1 documents (the club document plus each membership document), all
submitted in one atomic batch commit — both front-ends factor through
the single `commitBatch` of `deleteClubBatch`, so no intermediate
state is committed — and every other document is untouched. -/
theorem club_delete_cascades_atomically (s : Store) (cid : Nat) (d : Doc)
    (hex : lookupDoc s.clubs cid = some d)
    (hnd : (s.clubs.map Prod.fst).Nodup) :
    (appDeleteClub s cid).1 = .ok ∧
    (appDeleteClub s cid).2 = commitBatch s (deleteClubBatch s cid) ∧
    mainDeleteClub s cid "DELETE" = commitBatch s (deleteClubBatch s cid) ∧
    (deleteClubBatch s cid).length = (clubMemberships s cid).length + 1 ∧
    (appDeleteClub s cid).2.universities = s.universities ∧
    (appDeleteClub s cid).2.people = s.people ∧
    (appDeleteClub s cid).2.clubs = removeDocAt s.clubs cid ∧
    lookupDoc (appDeleteClub s cid).2.clubs cid = none ∧
    (appDeleteClub s cid).2.memberships =
      s.memberships.filter (fun m => m.1 != cid) ∧
    docCount (appDeleteClub s cid).2 + ((clubMemberships s cid).length + 1) =
      docCount s := by
  have happ : appDeleteClub s cid = (.ok, commitBatch s (deleteClubBatch s cid)) := by
    simp [appDeleteClub, hex]
  have hmain : mainDeleteClub s cid "DELETE" =
      commitBatch s (deleteClubBatch s cid) := by
    have hds : pyStrip "DELETE" = "DELETE" := by decide
    simp [mainDeleteClub, hex, hds]
  obtain ⟨hu, hp, hn, hc, hm⟩ := deleteClubEffect s cid
  have hlen : (deleteClubBatch s cid).length = (clubMemberships s cid).length + 1 := by
    simp [deleteClubBatch]
  have hmemb : (cid, d) ∈ s.clubs := mem_of_lookupDoc s.clubs cid d hex
  have hclen := removeDocAt_length s.clubs cid d hnd hmemb
  have hmlen := memberships_filter_length s.memberships cid
  refine ⟨by rw [happ], by rw [happ], hmain, hlen, ?_, ?_, ?_, ?_, ?_, ?_⟩
  · rw [happ]; exact hu
  · rw [happ]; exact hp
  · rw [happ]; exact hc
  · rw [happ]; rw [hc]; exact lookupDoc_removeDocAt_self s.clubs cid
  · rw [happ]; exact hm
  · rw [happ]
    unfold docCount
    rw [hu, hp, hc, hm]
    unfold clubMemberships at hmlen ⊢
    omega

/-- Concrete run of the cascade-delete contract on `W1`: club 1 has
two memberships, the batch holds three deletes, and the committed
store has lost exactly those three documents. -/
theorem club_delete_cascades_atomically_witness :
    (deleteClubBatch W1 1).length = (clubMemberships W1 1).length + 1 ∧
    (appDeleteClub W1 1).2.memberships = W1.memberships.filter (fun m => m.1 != 1) ∧
    docCount (appDeleteClub W1 1).2 + ((clubMemberships W1 1).length + 1) =
      docCount W1 := by
  have h := club_delete_cascades_atomically W1 1 (appClubDoc 6 "Chess Club" 0 none none)
    (by decide) (by decide)
  exact ⟨h.2.2.2.1, h.2.2.2.2.2.2.2.2.1, h.2.2.2.2.2.2.2.2.2⟩

/-- Counterexample to C2: through the terminal front-end,
`create_university` with a name that is empty after stripping performs
a store write — a university document with an empty name is inserted —
instead of failing with a validation error before any store call. -/
theorem terminal_create_blank_name_writes :
    pyStrip "   " = "" ∧
    (mainCreateUniversity 0 5 emptyStore "   " "x").universities =
      [(0, mainUniversity 0 5 "" (some "x") none)] := by
  decide

/-- Claim C2 (amended): the web front-end's create operations reject an
empty-after-trim required field with a validation error and zero store
writes, but the terminal front-end's create operations perform no
validation and always write a document, even with a blank name. -/
theorem create_validation_semantics
    (now importTime : Nat) (s : Store) (nf df ef sf descf rf stf tf : String)
    (uidSel : Option Nat) (cid : Nat) (cd : Doc)
    (h : pyStrip nf = "") (hclub : lookupDoc s.clubs cid = some cd) :
    appCreateUniversity now s nf df = (.validationError, s) ∧
    appCreateClub now s nf uidSel descf = (.validationError, s) ∧
    appCreatePerson now s nf ef sf = (.validationError, s) ∧
    appAddMember now s cid none rf stf tf = (.validationError, s) ∧
    (mainCreateUniversity importTime now s nf df).universities.length =
      s.universities.length + 1 ∧
    (mainCreatePerson importTime now s nf ef sf).people.length =
      s.people.length + 1 := by
  refine ⟨?_, ?_, ?_, ?_, ?_, ?_⟩
  · simp [appCreateUniversity, h]
  · simp [appCreateClub, h]
  · simp [appCreatePerson, h]
  · simp [appAddMember, hclub]
  · simp [mainCreateUniversity]
  · simp [mainCreatePerson]

/-- Concrete run of the create-validation contract: on `W1`, a
whitespace-only name is rejected by the web handler but written by the
terminal handler. -/
theorem create_validation_semantics_witness :
    appCreateUniversity 5 W1 "  " "d" = (.validationError, W1) ∧
    appAddMember 5 W1 1 none "" "" "" = (.validationError, W1) ∧
    (mainCreateUniversity 0 5 W1 "  " "d").universities.length =
      W1.universities.length + 1 := by
  have h := create_validation_semantics 5 0 W1 "  " "d" "e" "s" "de" "r" "st" "t"
    none 1 (appClubDoc 6 "Chess Club" 0 none none) (by decide) (by decide)
  exact ⟨h.1, h.2.2.2.1, h.2.2.2.2.1⟩

/-- Reading the first field written by a two-field merge. -/
theorem getField_merge2_fst (d : Doc) (k1 k2 : String) (v1 v2 : Value)
    (h : k1 ≠ k2) :
    getField (mergeUpdate d [(k1, v1), (k2, v2)]) k1 = some v1 := by
  show getField (setField (setField d k1 v1) k2 v2) k1 = some v1
  rw [getField_setField_ne _ _ _ _ h, getField_setField_same]

/-- Reading the second field written by a two-field merge. -/
theorem getField_merge2_snd (d : Doc) (k1 k2 : String) (v1 v2 : Value) :
    getField (mergeUpdate d [(k1, v1), (k2, v2)]) k2 = some v2 := by
  show getField (setField (setField d k1 v1) k2 v2) k2 = some v2
  rw [getField_setField_same]

/-- Reading the first field written by a three-field merge. -/
theorem getField_merge3_fst (d : Doc) (k1 k2 k3 : String) (v1 v2 v3 : Value)
    (h12 : k1 ≠ k2) (h13 : k1 ≠ k3) :
    getField (mergeUpdate d [(k1, v1), (k2, v2), (k3, v3)]) k1 = some v1 := by
  show getField (setField (setField (setField d k1 v1) k2 v2) k3 v3) k1 = some v1
  rw [getField_setField_ne _ _ _ _ h13, getField_setField_ne _ _ _ _ h12,
    getField_setField_same]

/-- Reading the second field written by a three-field merge. -/
theorem getField_merge3_snd (d : Doc) (k1 k2 k3 : String) (v1 v2 v3 : Value)
    (h23 : k2 ≠ k3) :
    getField (mergeUpdate d [(k1, v1), (k2, v2), (k3, v3)]) k2 = some v2 := by
  show getField (setField (setField (setField d k1 v1) k2 v2) k3 v3) k2 = some v2
  rw [getField_setField_ne _ _ _ _ h23, getField_setField_same]

/-- Reading the third field written by a three-field merge. -/
theorem getField_merge3_thd (d : Doc) (k1 k2 k3 : String) (v1 v2 v3 : Value) :
    getField (mergeUpdate d [(k1, v1), (k2, v2), (k3, v3)]) k3 = some v3 := by
  show getField (setField (setField (setField d k1 v1) k2 v2) k3 v3) k3 = some v3
  rw [getField_setField_same]

/-- Finding the updated membership returns the merged document. -/
theorem find?_updateMemAt_self (ms : List (Nat × Nat × Doc)) (c m : Nat)
    (upd : List (String × Value)) :
    (updateMemAt ms c m upd).find? (fun x => x.1 == c && x.2.1 == m) =
      (ms.find? (fun x => x.1 == c && x.2.1 == m)).map
        (fun x => (x.1, x.2.1, mergeUpdate x.2.2 upd)) := by
  induction ms with
  | nil => rfl
  | cons p t ih =>
    by_cases hp : (p.1 == c && p.2.1 == m) = true
    · have e1 : updateMemAt (p :: t) c m upd =
          (p.1, p.2.1, mergeUpdate p.2.2 upd) :: updateMemAt t c m upd := by
        unfold updateMemAt
        rw [List.map_cons]
        congr 1
        simp [hp]
      rw [e1]
      rw [List.find?_cons_of_pos (a := (p.1, p.2.1, mergeUpdate p.2.2 upd)) _ hp]
      rw [List.find?_cons_of_pos (a := p) _ hp]
      rfl
    · have e1 : updateMemAt (p :: t) c m upd = p :: updateMemAt t c m upd := by
        unfold updateMemAt
        rw [List.map_cons]
        congr 1
        simp [hp]
      rw [e1]
      rw [List.find?_cons_of_neg (a := p) _ hp]
      rw [List.find?_cons_of_neg (a := p) _ hp]
      exact ih

/-- Looking up the membership just updated returns the merged
document. -/
theorem lookupMembership_updateMemAt (s : Store) (cid mid : Nat) (dm : Doc)
    (upd : List (String × Value))
    (hm : lookupMembership s cid mid = some dm) :
    lookupMembership { s with memberships := updateMemAt s.memberships cid mid upd }
      cid mid = some (mergeUpdate dm upd) := by
  unfold lookupMembership at hm ⊢
  rcases Option.map_eq_some'.mp hm with ⟨x, hfind, hx⟩
  show ((updateMemAt s.memberships cid mid upd).find?
    (fun x => x.1 == cid && x.2.1 == mid)).map (fun m => m.2.2) = _
  rw [find?_updateMemAt_self, hfind]
  simp [hx]

/-- Counterexample to C3: on `W1`, a web edit of university 0 (stored
domain `"uta.edu"`) with a non-blank name and a blank domain succeeds
and overwrites the stored domain with null instead of preserving it. -/
theorem web_blank_domain_overwrites :
    getField (appUniversity 5 "UTA" (some "uta.edu") none) "domain" =
      some (.str "uta.edu") ∧
    (appEditUniversity W1 0 "UTA" " ").1 = .ok ∧
    (lookupDoc (appEditUniversity W1 0 "UTA" " ").2.universities 0).map
      (fun d => getField d "domain") = some (some .null) := by
  decide

/-- Claim C3 (amended): terminal updates give every field blank-keeps-old /
non-blank-replaces semantics and never touch `createdAt`; web edits
also replace only the submitted fields and never touch `createdAt`,
but a blank optional field is overwritten with null (not preserved)
and a blank required name aborts the edit with no write. -/
theorem update_blank_field_semantics (s : Store) (uid cid mid : Nat) (du dm : Doc)
    (nIn dIn rIn stIn tIn : String)
    (hu : lookupDoc s.universities uid = some du)
    (hm : lookupMembership s cid mid = some dm) :
    (∃ d2, lookupDoc (mainUpdateUniversity s uid nIn dIn).universities uid = some d2 ∧
      (pyStrip dIn = "" → ∀ v, getField du "domain" = some v →
        getField d2 "domain" = some v) ∧
      (¬ pyStrip dIn = "" → getField d2 "domain" = some (.str (pyStrip dIn))) ∧
      (pyStrip nIn = "" → ∀ v, getField du "name" = some v →
        getField d2 "name" = some v) ∧
      (¬ pyStrip nIn = "" → getField d2 "name" = some (.str (pyStrip nIn))) ∧
      getField d2 "createdAt" = getField du "createdAt") ∧
    (∃ d3, lookupMembership (mainUpdateMembership s cid mid rIn stIn tIn) cid mid =
        some d3 ∧
      (pyStrip tIn = "" → ∀ v, getField dm "title" = some v →
        getField d3 "title" = some v) ∧
      (¬ pyStrip tIn = "" → getField d3 "title" = some (.str (pyStrip tIn))) ∧
      (pyStrip rIn = "" → ∀ v, getField dm "role" = some v →
        getField d3 "role" = some v) ∧
      getField d3 "createdAt" = getField dm "createdAt") ∧
    (pyStrip nIn = "" → appEditUniversity s uid nIn dIn = (.validationError, s)) ∧
    (¬ pyStrip nIn = "" → pyStrip dIn = "" → ∃ d4,
      lookupDoc (appEditUniversity s uid nIn dIn).2.universities uid = some d4 ∧
      getField d4 "domain" = some Value.null ∧
      getField d4 "createdAt" = getField du "createdAt") := by
  have hnd : ("name" : String) ≠ "domain" := by decide
  have hrt : ("role" : String) ≠ "title" := by decide
  refine ⟨?_, ?_, ?_, ?_⟩
  · have hrun : mainUpdateUniversity s uid nIn dIn = { s with
        universities := updateDocAt s.universities uid
          [("name", pyOrValue (pyStrip nIn) (pyGet du "name" .null)),
           ("domain", pyOrValue (pyStrip dIn) (pyGet du "domain" .null))] } := by
      simp [mainUpdateUniversity, hu]
    refine ⟨mergeUpdate du
      [("name", pyOrValue (pyStrip nIn) (pyGet du "name" .null)),
       ("domain", pyOrValue (pyStrip dIn) (pyGet du "domain" .null))], ?_, ?_, ?_, ?_, ?_, ?_⟩
    · rw [hrun]
      show lookupDoc (updateDocAt s.universities uid _) uid = _
      rw [lookupDoc_updateDocAt_self, hu]
      rfl
    · intro hblank v hv
      rw [getField_merge2_snd]
      simp [pyOrValue, hblank, pyGet, hv]
    · intro hnb
      rw [getField_merge2_snd]
      simp [pyOrValue, hnb]
    · intro hblank v hv
      rw [getField_merge2_fst _ _ _ _ _ hnd]
      simp [pyOrValue, hblank, pyGet, hv]
    · intro hnb
      rw [getField_merge2_fst _ _ _ _ _ hnd]
      simp [pyOrValue, hnb]
    · exact getField_mergeUpdate_of_not_mem _ _ _ (by simp)
  · have hrun : mainUpdateMembership s cid mid rIn stIn tIn = { s with
        memberships := updateMemAt s.memberships cid mid
          [("role", pyOrValue (pyStrip rIn) (pyGet dm "role" .null)),
           ("status", pyOrValue (pyStrip stIn) (pyGet dm "status" .null)),
           ("title", pyOrValue (pyStrip tIn) (pyGet dm "title" .null))] } := by
      simp [mainUpdateMembership, hm]
    refine ⟨mergeUpdate dm
      [("role", pyOrValue (pyStrip rIn) (pyGet dm "role" .null)),
       ("status", pyOrValue (pyStrip stIn) (pyGet dm "status" .null)),
       ("title", pyOrValue (pyStrip tIn) (pyGet dm "title" .null))], ?_, ?_, ?_, ?_, ?_⟩
    · rw [hrun]
      exact lookupMembership_updateMemAt s cid mid dm _ hm
    · intro hblank v hv
      rw [getField_merge3_thd]
      simp [pyOrValue, hblank, pyGet, hv]
    · intro hnb
      rw [getField_merge3_thd]
      simp [pyOrValue, hnb]
    · intro hblank v hv
      rw [getField_merge3_fst _ _ _ _ _ _ _ (by decide) (by decide)]
      simp [pyOrValue, hblank, pyGet, hv]
    · exact getField_mergeUpdate_of_not_mem _ _ _ (by simp)
  · intro hblank
    simp [appEditUniversity, hu, hblank]
  · intro hnb hdb
    have hrun : appEditUniversity s uid nIn dIn = (.ok, { s with
        universities := updateDocAt s.universities uid
          [("name", .str (pyStrip nIn)), ("domain", Value.null)] }) := by
      simp [appEditUniversity, hu, hnb, pyOrNone, hdb, optVal]
    refine ⟨mergeUpdate du [("name", .str (pyStrip nIn)), ("domain", Value.null)],
      ?_, ?_, ?_⟩
    · rw [hrun]
      show lookupDoc (updateDocAt s.universities uid _) uid = _
      rw [lookupDoc_updateDocAt_self, hu]
      rfl
    · rw [getField_merge2_snd]
    · exact getField_mergeUpdate_of_not_mem _ _ _ (by simp)

/-- Concrete run of the blank-field update contract on `W1`: a blank
terminal domain input keeps `"uta.edu"`, a non-blank membership title
replaces the stored one, and `createdAt` is untouched. -/
theorem update_blank_field_semantics_witness :
    (∃ d2, lookupDoc (mainUpdateUniversity W1 0 "" "").universities 0 = some d2 ∧
      getField d2 "domain" = some (.str "uta.edu")) ∧
    (∃ d3, lookupMembership (mainUpdateMembership W1 1 2 "" "" "President") 1 2 =
        some d3 ∧ getField d3 "title" = some (.str "President")) := by
  have h := update_blank_field_semantics W1 0 1 2
    (appUniversity 5 "UTA" (some "uta.edu") none)
    (appMembershipDoc 8 10 "officer" "active" (some "VP") none)
    "" "" "" "" "President" (by decide) (by decide)
  obtain ⟨⟨d2, h2a, h2b, _, _, _, _⟩, ⟨d3, h3a, _, h3c, _, _⟩, _, _⟩ := h
  refine ⟨⟨d2, h2a, ?_⟩, ⟨d3, h3a, ?_⟩⟩
  · exact h2b (by decide) (.str "uta.edu") (by decide)
  · exact h3c (by decide)

/-- A concrete store with dangling references: club 1 references the
nonexistent university 50, and its membership 2 references the
nonexistent person 99. -/
def W2 : Store :=
  ⟨[], [(1, appClubDoc 6 "Chess Club" 50 none none)], [],
   [(1, 2, appMembershipDoc 8 99 "member" "active" none none)], 9⟩

/-- Counterexample to C4: for a membership whose person does not exist,
the web member listing substitutes `"Unknown"` for `personName` but
the empty string — not the `"Unknown"` placeholder — for
`personEmail`. -/
theorem member_email_placeholder_is_empty :
    appClubMembers W2 1 =
      some [{ id := 2, doc := appMembershipDoc 8 99 "member" "active" none none,
              personName := .str "Unknown", personEmail := .str "" }] ∧
    Value.str "" ≠ Value.str "Unknown" := by
  decide

/-- Claim C4 (amended): the web club listing substitutes `"Unknown"` for the
name of a missing University and the web member listing substitutes
`"Unknown"` for the name of a missing Person without failing, but uses
the empty string for `personEmail`; the terminal member listing raises
(`AttributeError`) on a missing Person instead of substituting a
placeholder. -/
theorem dangling_reference_placeholders (s : Store) :
    (∀ r ∈ appClubs s, ∀ uid, getField r.doc "universityId" = some (.ref uid) →
      lookupDoc s.universities uid = none → r.universityName = .str "Unknown") ∧
    (∀ cid rows, appClubMembers s cid = some rows →
      ∀ r ∈ rows, ∀ pid, getField r.doc "personId" = some (.ref pid) →
        lookupDoc s.people pid = none →
        r.personName = .str "Unknown" ∧ r.personEmail = .str "") ∧
    (∀ cid m, m ∈ clubMemberships s cid →
      ∀ pid, getField m.2.2 "personId" = some (.ref pid) →
        lookupDoc s.people pid = none →
        ∃ e, mainListClubMembers s cid = .error e) := by
  refine ⟨?_, ?_, ?_⟩
  · intro r hr uid hgf hlk
    rcases List.mem_map.mp hr with ⟨p, hp, rfl⟩
    have hgf2 : getField p.2 "universityId" = some (.ref uid) := hgf
    simp [appClubRow, hgf2, hlk]
  · intro cid rows hrows r hr pid hgf hlk
    unfold appClubMembers at hrows
    cases hc : lookupDoc s.clubs cid with
    | none => rw [hc] at hrows; cases hrows
    | some cdoc =>
      rw [hc] at hrows
      have h2 := Option.some.inj hrows
      rw [← h2] at hr
      rcases List.mem_map.mp hr with ⟨m, hmm, rfl⟩
      have hgf2 : getField m.2.2 "personId" = some (.ref pid) := hgf
      constructor <;> simp [appMemberRow, hgf2, hlk]
  · intro cid m hmm pid hgf hlk
    apply mapExcept_error_of_mem (mainMemberLine s) (clubMemberships s cid) m hmm
      "AttributeError"
    simp [mainMemberLine, hgf, hlk]

/-- Concrete run of the placeholder contract on `W2`: the dangling
person shows as `"Unknown"` with empty email in the web listing, and
crashes the terminal listing. -/
theorem dangling_reference_placeholders_witness :
    ((appMemberRow W2 (1, 2, appMembershipDoc 8 99 "member" "active" none none)).personName
        = .str "Unknown" ∧
      (appMemberRow W2 (1, 2, appMembershipDoc 8 99 "member" "active" none none)).personEmail
        = .str "") ∧
    (∃ e, mainListClubMembers W2 1 = .error e) := by
  refine ⟨?_, ?_⟩
  · exact (dangling_reference_placeholders W2).2.1 1
      ((clubMemberships W2 1).map (appMemberRow W2)) (by rfl)
      (appMemberRow W2 (1, 2, appMembershipDoc 8 99 "member" "active" none none))
      (by decide) 99 (by decide) (by decide)
  · exact (dangling_reference_placeholders W2).2.2 1
      (1, 2, appMembershipDoc 8 99 "member" "active" none none)
      (by decide) 99 (by decide) (by decide)

/-- Claim C5: the terminal front-end's dataclasses evaluated their
`createdAt: datetime = datetime.utcnow()` default once at module
import, so two entities constructed at different times `t1 ≠ t2`
without an explicit `createdAt` carry the very same timestamp; the web
front-end's `__post_init__` stamps each construction with its own
clock, as the claim describes. -/
theorem createdAt_default_frozen_in_terminal (importTime t1 t2 : Nat)
    (n1 n2 : String) (d1 d2 : Option String) :
    getField (mainUniversity importTime t1 n1 d1 none) "createdAt" =
      getField (mainUniversity importTime t2 n2 d2 none) "createdAt" ∧
    getField (mainPerson importTime t1 n1 none none none) "createdAt" =
      getField (mainPerson importTime t2 n2 none none none) "createdAt" ∧
    getField (appUniversity t1 n1 d1 none) "createdAt" = some (.time t1) ∧
    (t1 ≠ t2 →
      getField (appUniversity t1 n1 d1 none) "createdAt" ≠
        getField (appUniversity t2 n2 d2 none) "createdAt") := by
  refine ⟨rfl, rfl, rfl, ?_⟩
  intro hne
  have e1 : getField (appUniversity t1 n1 d1 none) "createdAt" = some (.time t1) := rfl
  have e2 : getField (appUniversity t2 n2 d2 none) "createdAt" = some (.time t2) := rfl
  rw [e1, e2]
  simpa using hne

/-- Concrete run of the frozen-default contract: terminal entities
built at times 100 and 200 share one `createdAt`, web entities do
not. -/
theorem createdAt_default_frozen_witness :
    getField (mainUniversity 3 100 "A" none none) "createdAt" =
      getField (mainUniversity 3 200 "B" none none) "createdAt" ∧
    getField (appUniversity 100 "A" none none) "createdAt" ≠
      getField (appUniversity 200 "B" none none) "createdAt" := by
  have h := createdAt_default_frozen_in_terminal 3 100 200 "A" "B" none none
  exact ⟨h.1, h.2.2.2 (by decide)⟩

/-- Document ids of a top-level collection. -/
def colIds (l : List (Nat × Doc)) : List Nat := l.map Prod.fst

/-- Keys (club id, membership id) of the membership pool. -/
def memIds (ms : List (Nat × Nat × Doc)) : List (Nat × Nat) :=
  ms.map (fun m => (m.1, m.2.1))

/-- Every document of `old` still exists in `new` under its own id
with its `createdAt` field intact. -/
def keepsCreatedAt (old new : List (Nat × Doc)) : Prop :=
  ∀ i d, (i, d) ∈ old →
    ∃ d2, (i, d2) ∈ new ∧ getField d2 "createdAt" = getField d "createdAt"

/-- Membership-pool version of `keepsCreatedAt`. -/
def memKeepsCreatedAt (old new : List (Nat × Nat × Doc)) : Prop :=
  ∀ c i d, (c, i, d) ∈ old →
    ∃ d2, (c, i, d2) ∈ new ∧ getField d2 "createdAt" = getField d "createdAt"

/-- An untouched collection keeps every `createdAt`. -/
theorem keepsCreatedAt_refl (l : List (Nat × Doc)) : keepsCreatedAt l l :=
  fun _ d h => ⟨d, h, rfl⟩

/-- An untouched membership pool keeps every `createdAt`. -/
theorem memKeepsCreatedAt_refl (ms : List (Nat × Nat × Doc)) :
    memKeepsCreatedAt ms ms :=
  fun _ _ d h => ⟨d, h, rfl⟩

/-- The two conclusions of the update-frame contract, given that the
new collection is the old one or a `createdAt`-avoiding update of
it. -/
theorem updateFrame (old new : List (Nat × Doc)) (i : Nat)
    (upd : List (String × Value))
    (hor : new = old ∨ new = updateDocAt old i upd)
    (hk : ∀ kv ∈ upd, kv.1 ≠ "createdAt") :
    colIds new = colIds old ∧ keepsCreatedAt old new := by
  rcases hor with rfl | rfl
  · exact ⟨rfl, keepsCreatedAt_refl _⟩
  · exact ⟨by simp [colIds, updateDocAt_map_fst],
      fun j d h => updateDocAt_preserves old i upd "createdAt" hk j d h⟩

/-- Membership-pool version of `updateFrame`. -/
theorem memUpdateFrame (old new : List (Nat × Nat × Doc)) (c m : Nat)
    (upd : List (String × Value))
    (hor : new = old ∨ new = updateMemAt old c m upd)
    (hk : ∀ kv ∈ upd, kv.1 ≠ "createdAt") :
    memIds new = memIds old ∧ memKeepsCreatedAt old new := by
  rcases hor with rfl | rfl
  · exact ⟨rfl, memKeepsCreatedAt_refl _⟩
  · exact ⟨by simp [memIds, updateMemAt_map_fst],
      fun c2 i d h => updateMemAt_preserves old c m upd "createdAt" hk c2 i d h⟩

/-- `edit_university` leaves the collection alone or applies a
name/domain update. -/
theorem appEditUniversity_shape (s : Store) (uid : Nat) (nIn dIn : String) :
    (appEditUniversity s uid nIn dIn).2.universities = s.universities ∨
    (appEditUniversity s uid nIn dIn).2.universities =
      updateDocAt s.universities uid
        [("name", .str (pyStrip nIn)), ("domain", optVal (pyOrNone (pyStrip dIn)))] := by
  unfold appEditUniversity
  cases lookupDoc s.universities uid with
  | none => left; rfl
  | some d0 =>
    by_cases hb : pyStrip nIn = ""
    · left; simp [hb]
    · right; simp [hb]

/-- `edit_club` leaves the collection alone or applies a
name/description update. -/
theorem appEditClub_shape (s : Store) (cid : Nat) (nIn descIn : String) :
    (appEditClub s cid nIn descIn).2.clubs = s.clubs ∨
    (appEditClub s cid nIn descIn).2.clubs =
      updateDocAt s.clubs cid
        [("name", .str (pyStrip nIn)), ("description", optVal (pyOrNone (pyStrip descIn)))] := by
  unfold appEditClub
  cases lookupDoc s.clubs cid with
  | none => left; rfl
  | some d0 =>
    by_cases hb : pyStrip nIn = ""
    · left; simp [hb]
    · right; simp [hb]

/-- `edit_person` leaves the collection alone or applies a
name/email/studentId update. -/
theorem appEditPerson_shape (s : Store) (pid : Nat) (nIn eIn sIn : String) :
    (appEditPerson s pid nIn eIn sIn).2.people = s.people ∨
    (appEditPerson s pid nIn eIn sIn).2.people =
      updateDocAt s.people pid
        [("name", .str (pyStrip nIn)), ("email", optVal (pyOrNone (pyStrip eIn))),
         ("studentId", optVal (pyOrNone (pyStrip sIn)))] := by
  unfold appEditPerson
  cases lookupDoc s.people pid with
  | none => left; rfl
  | some d0 =>
    by_cases hb : pyStrip nIn = ""
    · left; simp [hb]
    · right; simp [hb]

/-- `edit_member` leaves the pool alone or applies a
role/status/title update. -/
theorem appEditMember_shape (s : Store) (cid mid : Nat) (rIn stIn tIn : String) :
    (appEditMember s cid mid rIn stIn tIn).2.memberships = s.memberships ∨
    (appEditMember s cid mid rIn stIn tIn).2.memberships =
      updateMemAt s.memberships cid mid
        [("role", .str (if rIn = "" then "member" else rIn)),
         ("status", .str (if stIn = "" then "active" else stIn)),
         ("title", optVal (pyOrNone (pyStrip tIn)))] := by
  unfold appEditMember
  cases lookupDoc s.clubs cid with
  | none => left; rfl
  | some d0 =>
    cases lookupMembership s cid mid with
    | none => left; rfl
    | some d1 => right; rfl

/-- Terminal `update_university` leaves the collection alone or
applies a name/domain update. -/
theorem mainUpdateUniversity_shape (s : Store) (uid : Nat) (nIn dIn : String) :
    (mainUpdateUniversity s uid nIn dIn).universities = s.universities ∨
    ∃ d0, (mainUpdateUniversity s uid nIn dIn).universities =
      updateDocAt s.universities uid
        [("name", pyOrValue (pyStrip nIn) (pyGet d0 "name" .null)),
         ("domain", pyOrValue (pyStrip dIn) (pyGet d0 "domain" .null))] := by
  unfold mainUpdateUniversity
  cases lookupDoc s.universities uid with
  | none => left; rfl
  | some d0 => right; exact ⟨d0, rfl⟩

/-- Terminal `update_club` leaves the collection alone or applies a
name/description update. -/
theorem mainUpdateClub_shape (s : Store) (cid : Nat) (nIn descIn : String) :
    (mainUpdateClub s cid nIn descIn).clubs = s.clubs ∨
    ∃ d0, (mainUpdateClub s cid nIn descIn).clubs =
      updateDocAt s.clubs cid
        [("name", pyOrValue (pyStrip nIn) (pyGet d0 "name" .null)),
         ("description", pyOrValue (pyStrip descIn) (pyGet d0 "description" .null))] := by
  unfold mainUpdateClub
  cases lookupDoc s.clubs cid with
  | none => left; rfl
  | some d0 => right; exact ⟨d0, rfl⟩

/-- Terminal `update_person` leaves the collection alone or applies a
name/email/studentId update. -/
theorem mainUpdatePerson_shape (s : Store) (pid : Nat) (nIn eIn sIn : String) :
    (mainUpdatePerson s pid nIn eIn sIn).people = s.people ∨
    ∃ d0, (mainUpdatePerson s pid nIn eIn sIn).people =
      updateDocAt s.people pid
        [("name", pyOrValue (pyStrip nIn) (pyGet d0 "name" .null)),
         ("email", pyOrValue (pyStrip eIn) (pyGet d0 "email" .null)),
         ("studentId", pyOrValue (pyStrip sIn) (pyGet d0 "studentId" .null))] := by
  unfold mainUpdatePerson
  cases lookupDoc s.people pid with
  | none => left; rfl
  | some d0 => right; exact ⟨d0, rfl⟩

/-- Terminal `update_membership` leaves the pool alone or applies a
role/status/title update. -/
theorem mainUpdateMembership_shape (s : Store) (cid mid : Nat) (rIn stIn tIn : String) :
    (mainUpdateMembership s cid mid rIn stIn tIn).memberships = s.memberships ∨
    ∃ d0, (mainUpdateMembership s cid mid rIn stIn tIn).memberships =
      updateMemAt s.memberships cid mid
        [("role", pyOrValue (pyStrip rIn) (pyGet d0 "role" .null)),
         ("status", pyOrValue (pyStrip stIn) (pyGet d0 "status" .null)),
         ("title", pyOrValue (pyStrip tIn) (pyGet d0 "title" .null))] := by
  unfold mainUpdateMembership
  cases lookupMembership s cid mid with
  | none => left; rfl
  | some d0 => right; exact ⟨d0, rfl⟩

/-- Claim C6: no update operation of either front-end, on any of the four
entity types, modifies a stored `createdAt` or any document id: after
any update each document still exists under its original id with its
original `createdAt`. -/
theorem updates_never_touch_createdAt_or_id (s : Store)
    (uid cid pid mid : Nat) (nIn dIn descIn eIn sIn rIn stIn tIn : String) :
    (colIds (appEditUniversity s uid nIn dIn).2.universities = colIds s.universities ∧
     keepsCreatedAt s.universities (appEditUniversity s uid nIn dIn).2.universities) ∧
    (colIds (appEditClub s cid nIn descIn).2.clubs = colIds s.clubs ∧
     keepsCreatedAt s.clubs (appEditClub s cid nIn descIn).2.clubs) ∧
    (colIds (appEditPerson s pid nIn eIn sIn).2.people = colIds s.people ∧
     keepsCreatedAt s.people (appEditPerson s pid nIn eIn sIn).2.people) ∧
    (memIds (appEditMember s cid mid rIn stIn tIn).2.memberships = memIds s.memberships ∧
     memKeepsCreatedAt s.memberships (appEditMember s cid mid rIn stIn tIn).2.memberships) ∧
    (colIds (mainUpdateUniversity s uid nIn dIn).universities = colIds s.universities ∧
     keepsCreatedAt s.universities (mainUpdateUniversity s uid nIn dIn).universities) ∧
    (colIds (mainUpdateClub s cid nIn descIn).clubs = colIds s.clubs ∧
     keepsCreatedAt s.clubs (mainUpdateClub s cid nIn descIn).clubs) ∧
    (colIds (mainUpdatePerson s pid nIn eIn sIn).people = colIds s.people ∧
     keepsCreatedAt s.people (mainUpdatePerson s pid nIn eIn sIn).people) ∧
    (memIds (mainUpdateMembership s cid mid rIn stIn tIn).memberships =
        memIds s.memberships ∧
     memKeepsCreatedAt s.memberships
        (mainUpdateMembership s cid mid rIn stIn tIn).memberships) := by
  refine ⟨?_, ?_, ?_, ?_, ?_, ?_, ?_, ?_⟩
  · exact updateFrame _ _ uid _ (appEditUniversity_shape s uid nIn dIn) (by simp)
  · exact updateFrame _ _ cid _ (appEditClub_shape s cid nIn descIn) (by simp)
  · exact updateFrame _ _ pid _ (appEditPerson_shape s pid nIn eIn sIn) (by simp)
  · exact memUpdateFrame _ _ cid mid _ (appEditMember_shape s cid mid rIn stIn tIn)
      (by simp)
  · rcases mainUpdateUniversity_shape s uid nIn dIn with h | ⟨d0, h⟩
    · exact updateFrame _ _ uid [] (Or.inl h) (by simp)
    · exact updateFrame _ _ uid _ (Or.inr h) (by simp)
  · rcases mainUpdateClub_shape s cid nIn descIn with h | ⟨d0, h⟩
    · exact updateFrame _ _ cid [] (Or.inl h) (by simp)
    · exact updateFrame _ _ cid _ (Or.inr h) (by simp)
  · rcases mainUpdatePerson_shape s pid nIn eIn sIn with h | ⟨d0, h⟩
    · exact updateFrame _ _ pid [] (Or.inl h) (by simp)
    · exact updateFrame _ _ pid _ (Or.inr h) (by simp)
  · rcases mainUpdateMembership_shape s cid mid rIn stIn tIn with h | ⟨d0, h⟩
    · exact memUpdateFrame _ _ cid mid [] (Or.inl h) (by simp)
    · exact memUpdateFrame _ _ cid mid _ (Or.inr h) (by simp)

/-- Concrete run of the frame contract on `W1`: after a web edit and a
terminal update of university 0, its `createdAt` is unchanged. -/
theorem updates_never_touch_createdAt_or_id_witness :
    (∃ d2, (0, d2) ∈ (appEditUniversity W1 0 "New Name" "").2.universities ∧
      getField d2 "createdAt" =
        getField (appUniversity 5 "UTA" (some "uta.edu") none) "createdAt") ∧
    colIds (mainUpdateUniversity W1 0 "" "").universities = colIds W1.universities := by
  have h := updates_never_touch_createdAt_or_id W1 0 1 10 2 "New Name" "" "" "" "" "" "" ""
  exact ⟨h.1.2 0 (appUniversity 5 "UTA" (some "uta.edu") none) (by decide), h.2.2.2.2.1.1⟩

/-- Claim C7: deleting a Person removes only that person document — every
membership, club and university is untouched; deleting a University
removes only that university document — clubs (still present and still
listed by the clubs view), people and memberships are untouched. -/
theorem person_university_delete_no_cascade (s : Store) (pid uid : Nat)
    (dp du : Doc) (hp : lookupDoc s.people pid = some dp)
    (hu : lookupDoc s.universities uid = some du) :
    (appDeletePerson s pid).1 = .ok ∧
    (appDeletePerson s pid).2.memberships = s.memberships ∧
    (appDeletePerson s pid).2.clubs = s.clubs ∧
    (appDeletePerson s pid).2.universities = s.universities ∧
    lookupDoc (appDeletePerson s pid).2.people pid = none ∧
    (∀ j, j ≠ pid →
      lookupDoc (appDeletePerson s pid).2.people j = lookupDoc s.people j) ∧
    (appDeleteUniversity s uid).1 = .ok ∧
    (appDeleteUniversity s uid).2.clubs = s.clubs ∧
    (appDeleteUniversity s uid).2.people = s.people ∧
    (appDeleteUniversity s uid).2.memberships = s.memberships ∧
    lookupDoc (appDeleteUniversity s uid).2.universities uid = none ∧
    (∀ j, j ≠ uid → lookupDoc (appDeleteUniversity s uid).2.universities j =
      lookupDoc s.universities j) ∧
    ((appClubs (appDeleteUniversity s uid).2).map (fun r => (r.id, r.doc))).Perm
      s.clubs := by
  have ha : appDeletePerson s pid =
      (.ok, { s with people := removeDocAt s.people pid }) := by
    simp [appDeletePerson, hp]
  have hb : appDeleteUniversity s uid =
      (.ok, { s with universities := removeDocAt s.universities uid }) := by
    simp [appDeleteUniversity, hu]
  refine ⟨by rw [ha], by rw [ha], by rw [ha], by rw [ha], ?_, ?_,
    by rw [hb], by rw [hb], by rw [hb], by rw [hb], ?_, ?_, ?_⟩
  · rw [ha]; exact lookupDoc_removeDocAt_self _ _
  · intro j hj; rw [ha]; exact lookupDoc_removeDocAt_ne _ _ _ hj
  · rw [hb]; exact lookupDoc_removeDocAt_self _ _
  · intro j hj; rw [hb]; exact lookupDoc_removeDocAt_ne _ _ _ hj
  · rw [hb]
    have e : (appClubs { s with universities := removeDocAt s.universities uid }).map
        (fun r => (r.id, r.doc)) = orderByName s.clubs := by
      unfold appClubs
      rw [List.map_map]
      have e2 : ((fun r : ClubRow => (r.id, r.doc)) ∘
          appClubRow { s with universities := removeDocAt s.universities uid }) =
          id := by
        funext p; rfl
      rw [e2, List.map_id]
    rw [e]
    exact orderByName_perm s.clubs

/-- Concrete run of the no-cascade contract on `W1`: deleting person 10
leaves both memberships in place; deleting university 0 leaves the club
in place. -/
theorem person_university_delete_no_cascade_witness :
    (appDeletePerson W1 10).2.memberships = W1.memberships ∧
    (appDeleteUniversity W1 0).2.clubs = W1.clubs := by
  have h := person_university_delete_no_cascade W1 10 0
    (appPerson 7 "Ada" (some "ada@uta.edu") (some "123") none)
    (appUniversity 5 "UTA" (some "uta.edu") none) (by decide) (by decide)
  exact ⟨h.2.1, h.2.2.2.2.2.2.2.1⟩

/-- Ascending document-id order on membership documents: an un-ordered
Firestore query returns its documents sorted by document name, which
for the modelled ids is the numeric id. -/
def memIdLe (a b : Nat × Nat × Doc) : Bool := decide (a.2.1 ≤ b.2.1)

/-- Insertion step of the model of the un-ordered subcollection
stream. -/
def insertById (x : Nat × Nat × Doc) :
    List (Nat × Nat × Doc) → List (Nat × Nat × Doc)
  | [] => [x]
  | y :: ys => if memIdLe x y then x :: y :: ys else y :: insertById x ys

/-- Sorting membership documents ascending by document id. -/
def sortById : List (Nat × Nat × Doc) → List (Nat × Nat × Doc)
  | [] => []
  | x :: xs => insertById x (sortById xs)

/-- Model of `club.reference.collection("memberships").stream()` with
no `order_by`: Firestore returns the subcollection's documents in
ascending document-id order.  Because `.document()` auto-generates
random ids, this order is unrelated to the order in which the
documents were created. -/
def streamMemberships (s : Store) (clubId : Nat) : List (Nat × Nat × Doc) :=
  sortById (clubMemberships s clubId)

/-- Totality of the document-id order. -/
theorem memIdLe_total (a b : Nat × Nat × Doc) :
    memIdLe a b = true ∨ memIdLe b a = true := by
  simp only [memIdLe, decide_eq_true_eq]
  omega

/-- Transitivity of the document-id order. -/
theorem memIdLe_trans (a b c : Nat × Nat × Doc) (h1 : memIdLe a b = true)
    (h2 : memIdLe b c = true) : memIdLe a c = true := by
  simp only [memIdLe, decide_eq_true_eq] at h1 h2 ⊢
  omega

/-- Inserting into the id-sorted list is a permutation of consing. -/
theorem insertById_perm (x : Nat × Nat × Doc) (l : List (Nat × Nat × Doc)) :
    (insertById x l).Perm (x :: l) := by
  induction l with
  | nil => exact List.Perm.refl _
  | cons y ys ih =>
    by_cases h : memIdLe x y = true
    · simp [insertById, h]
    · simp only [insertById, if_neg h]
      exact (ih.cons y).trans (List.Perm.swap x y ys)

/-- The stream model returns a permutation of the subcollection. -/
theorem sortById_perm (l : List (Nat × Nat × Doc)) : (sortById l).Perm l := by
  induction l with
  | nil => exact List.Perm.refl _
  | cons x xs ih => exact (insertById_perm x (sortById xs)).trans (ih.cons x)

/-- Inserting into an id-sorted list keeps it sorted. -/
theorem insertById_pairwise (x : Nat × Nat × Doc) (l : List (Nat × Nat × Doc))
    (h : l.Pairwise (fun a b => memIdLe a b = true)) :
    (insertById x l).Pairwise (fun a b => memIdLe a b = true) := by
  induction l with
  | nil => simp [insertById]
  | cons y ys ih =>
    rcases List.pairwise_cons.mp h with ⟨hy, hys⟩
    by_cases hxy : memIdLe x y = true
    · simp only [insertById, if_pos hxy]
      refine List.pairwise_cons.mpr ⟨?_, h⟩
      intro b hb
      rcases List.mem_cons.mp hb with rfl | hb2
      · exact hxy
      · exact memIdLe_trans x y b hxy (hy b hb2)
    · have hyx : memIdLe y x = true := by
        rcases memIdLe_total x y with hh | hh
        · exact absurd hh hxy
        · exact hh
      simp only [insertById, if_neg hxy]
      refine List.pairwise_cons.mpr ⟨?_, ih hys⟩
      intro b hb
      have hb2 : b = x ∨ b ∈ ys := by
        simpa using (insertById_perm x ys).mem_iff.mp hb
      rcases hb2 with rfl | hb3
      · exact hyx
      · exact hy b hb3

/-- The stream model is sorted ascending by document id. -/
theorem sortById_pairwise (l : List (Nat × Nat × Doc)) :
    (sortById l).Pairwise (fun a b => memIdLe a b = true) := by
  induction l with
  | nil => simp [sortById]
  | cons x xs ih => exact insertById_pairwise x (sortById xs) ih

/-- A concrete store in which creation order and document-id order
disagree: club 1's membership with document id 5 was created first
(`createdAt` 1) and the one with document id 3 second (`createdAt` 2)
— reachable because auto-generated document ids are random, so a
later document can receive a smaller id. -/
def W3 : Store :=
  ⟨[], [(1, appClubDoc 0 "Chess Club" 0 none none)], [],
   [(1, 5, appMembershipDoc 1 7 "member" "active" none none),
    (1, 3, appMembershipDoc 2 7 "member" "active" none none)], 6⟩

/-- Counterexample to C8: on `W3` the membership subcollection of club
1 in creation order is ids 5 then 3, but the un-ordered stream returns
ascending document ids 3 then 5, listing `createdAt` 2 before
`createdAt` 1 — the membership listing is not in creation order. -/
theorem membership_stream_not_creation_order :
    clubMemberships W3 1 =
      [(1, 5, appMembershipDoc 1 7 "member" "active" none none),
       (1, 3, appMembershipDoc 2 7 "member" "active" none none)] ∧
    streamMemberships W3 1 =
      [(1, 3, appMembershipDoc 2 7 "member" "active" none none),
       (1, 5, appMembershipDoc 1 7 "member" "active" none none)] ∧
    streamMemberships W3 1 ≠ clubMemberships W3 1 ∧
    (streamMemberships W3 1).map (fun m => getField m.2.2 "createdAt") =
      [some (.time 2), some (.time 1)] := by
  refine ⟨by decide, by decide, by decide, by decide⟩

/-- Claim C8 (amended): every listing of an empty collection is empty;
the university, people and club listings return the whole collection
sorted ascending by the `name` field; the membership listing
materializes the club's whole subcollection with no pagination and no
ordering clause, so the store returns it in ascending document-id
order — not creation order, since document ids are randomly
generated. -/
theorem list_designated_field_ordering (s : Store) (cid : Nat) (cd : Doc)
    (hc : lookupDoc s.clubs cid = some cd) :
    (s.universities = [] → appUniversities s = []) ∧
    (appUniversities s).Perm s.universities ∧
    (appUniversities s).Pairwise (fun a b => nameLe a b = true) ∧
    (s.people = [] → appPeople s = []) ∧
    (appPeople s).Perm s.people ∧
    (appPeople s).Pairwise (fun a b => nameLe a b = true) ∧
    (s.clubs = [] → appClubs s = []) ∧
    ((appClubs s).map (fun r => (r.id, r.doc))).Perm s.clubs ∧
    (appClubs s).Pairwise (fun a b => nameLe (a.id, a.doc) (b.id, b.doc) = true) ∧
    (clubMemberships s cid = [] → streamMemberships s cid = []) ∧
    (streamMemberships s cid).Perm (clubMemberships s cid) ∧
    (streamMemberships s cid).Pairwise (fun a b => a.2.1 ≤ b.2.1) ∧
    (∀ rows, appClubMembers s cid = some rows →
      (rows.map (fun r => (r.id, r.doc))).Perm
        ((streamMemberships s cid).map (fun m => (m.2.1, m.2.2)))) := by
  refine ⟨?_, orderByName_perm _, orderByName_pairwise _,
    ?_, orderByName_perm _, orderByName_pairwise _, ?_, ?_, ?_, ?_,
    sortById_perm _, ?_, ?_⟩
  · intro h; simp [appUniversities, h, orderByName]
  · intro h; simp [appPeople, h, orderByName]
  · intro h; simp [appClubs, h, orderByName]
  · unfold appClubs
    rw [List.map_map]
    have e2 : ((fun r : ClubRow => (r.id, r.doc)) ∘ appClubRow s) = id := by
      funext p; rfl
    rw [e2, List.map_id]
    exact orderByName_perm s.clubs
  · unfold appClubs
    exact List.pairwise_map.mpr (orderByName_pairwise s.clubs)
  · intro h; simp [streamMemberships, h, sortById]
  · refine (sortById_pairwise (clubMemberships s cid)).imp ?_
    intro a b h
    simpa [memIdLe] using h
  · intro rows hrows
    have heq : appClubMembers s cid =
        some ((clubMemberships s cid).map (appMemberRow s)) := by
      simp [appClubMembers, hc]
    rw [heq] at hrows
    rw [← Option.some.inj hrows, List.map_map]
    have e2 : ((fun r : MemberRow => (r.id, r.doc)) ∘ appMemberRow s) =
        (fun m : Nat × Nat × Doc => (m.2.1, m.2.2)) := by
      funext m; rfl
    rw [e2]
    exact (List.Perm.map _ (sortById_perm (clubMemberships s cid))).symm

/-- Concrete run of the listing contract on `W3`: the university
listing permutes the collection, and the member stream of club 1 is a
permutation of its subcollection sorted ascending by document id. -/
theorem list_designated_field_ordering_witness :
    (appUniversities W3).Perm W3.universities ∧
    (streamMemberships W3 1).Perm (clubMemberships W3 1) ∧
    (streamMemberships W3 1).Pairwise (fun a b => a.2.1 ≤ b.2.1) := by
  have h := list_designated_field_ordering W3 1 (appClubDoc 0 "Chess Club" 0 none none)
    (by decide)
  exact ⟨h.2.1, h.2.2.2.2.2.2.2.2.2.2.1, h.2.2.2.2.2.2.2.2.2.2.2.1⟩

/-- A non-empty stored string survives the `input().strip() or old`
idiom: the written value is again a non-empty string. -/
theorem pyOrValue_keeps_nonempty (x v : String) (hv : v ≠ "") :
    ∃ w, pyOrValue x (.str v) = .str w ∧ w ≠ "" := by
  by_cases hb : x = ""
  · exact ⟨v, by simp [pyOrValue, hb], hv⟩
  · exact ⟨x, by simp [pyOrValue, hb], hb⟩

/-- Claim C9: through the terminal front-end no update can clear an optional
field that holds a non-empty string: after `update_university`,
`update_person` or `update_membership`, a previously non-empty
`domain`, `email`, `studentId` or `title` is again a non-empty string
(never null, never empty). -/
theorem terminal_update_cannot_clear (s : Store) (uid pid cid mid : Nat)
    (du dp dm : Doc) (v : String) (nIn dIn eIn sIn rIn stIn tIn : String)
    (hu : lookupDoc s.universities uid = some du)
    (hp : lookupDoc s.people pid = some dp)
    (hm : lookupMembership s cid mid = some dm) (hv : v ≠ "") :
    (getField du "domain" = some (.str v) →
      ∃ d2 w, lookupDoc (mainUpdateUniversity s uid nIn dIn).universities uid =
          some d2 ∧ getField d2 "domain" = some (.str w) ∧ w ≠ "") ∧
    (getField dp "email" = some (.str v) →
      ∃ d2 w, lookupDoc (mainUpdatePerson s pid nIn eIn sIn).people pid = some d2 ∧
        getField d2 "email" = some (.str w) ∧ w ≠ "") ∧
    (getField dp "studentId" = some (.str v) →
      ∃ d2 w, lookupDoc (mainUpdatePerson s pid nIn eIn sIn).people pid = some d2 ∧
        getField d2 "studentId" = some (.str w) ∧ w ≠ "") ∧
    (getField dm "title" = some (.str v) →
      ∃ d2 w, lookupMembership (mainUpdateMembership s cid mid rIn stIn tIn) cid mid =
          some d2 ∧ getField d2 "title" = some (.str w) ∧ w ≠ "") := by
  have hrunU : mainUpdateUniversity s uid nIn dIn = { s with
      universities := updateDocAt s.universities uid
        [("name", pyOrValue (pyStrip nIn) (pyGet du "name" .null)),
         ("domain", pyOrValue (pyStrip dIn) (pyGet du "domain" .null))] } := by
    simp [mainUpdateUniversity, hu]
  have hrunP : mainUpdatePerson s pid nIn eIn sIn = { s with
      people := updateDocAt s.people pid
        [("name", pyOrValue (pyStrip nIn) (pyGet dp "name" .null)),
         ("email", pyOrValue (pyStrip eIn) (pyGet dp "email" .null)),
         ("studentId", pyOrValue (pyStrip sIn) (pyGet dp "studentId" .null))] } := by
    simp [mainUpdatePerson, hp]
  have hrunM : mainUpdateMembership s cid mid rIn stIn tIn = { s with
      memberships := updateMemAt s.memberships cid mid
        [("role", pyOrValue (pyStrip rIn) (pyGet dm "role" .null)),
         ("status", pyOrValue (pyStrip stIn) (pyGet dm "status" .null)),
         ("title", pyOrValue (pyStrip tIn) (pyGet dm "title" .null))] } := by
    simp [mainUpdateMembership, hm]
  refine ⟨?_, ?_, ?_, ?_⟩
  · intro hd
    obtain ⟨w, hw, hwne⟩ := pyOrValue_keeps_nonempty (pyStrip dIn) v hv
    refine ⟨mergeUpdate du
      [("name", pyOrValue (pyStrip nIn) (pyGet du "name" .null)),
       ("domain", pyOrValue (pyStrip dIn) (pyGet du "domain" .null))], w, ?_, ?_, hwne⟩
    · rw [hrunU]
      show lookupDoc (updateDocAt s.universities uid _) uid = _
      rw [lookupDoc_updateDocAt_self, hu]
      rfl
    · rw [getField_merge2_snd]
      have e : pyGet du "domain" Value.null = .str v := by simp [pyGet, hd]
      rw [e, hw]
  · intro hd
    obtain ⟨w, hw, hwne⟩ := pyOrValue_keeps_nonempty (pyStrip eIn) v hv
    refine ⟨mergeUpdate dp
      [("name", pyOrValue (pyStrip nIn) (pyGet dp "name" .null)),
       ("email", pyOrValue (pyStrip eIn) (pyGet dp "email" .null)),
       ("studentId", pyOrValue (pyStrip sIn) (pyGet dp "studentId" .null))], w,
      ?_, ?_, hwne⟩
    · rw [hrunP]
      show lookupDoc (updateDocAt s.people pid _) pid = _
      rw [lookupDoc_updateDocAt_self, hp]
      rfl
    · rw [getField_merge3_snd _ _ _ _ _ _ _ (by decide)]
      have e : pyGet dp "email" Value.null = .str v := by simp [pyGet, hd]
      rw [e, hw]
  · intro hd
    obtain ⟨w, hw, hwne⟩ := pyOrValue_keeps_nonempty (pyStrip sIn) v hv
    refine ⟨mergeUpdate dp
      [("name", pyOrValue (pyStrip nIn) (pyGet dp "name" .null)),
       ("email", pyOrValue (pyStrip eIn) (pyGet dp "email" .null)),
       ("studentId", pyOrValue (pyStrip sIn) (pyGet dp "studentId" .null))], w,
      ?_, ?_, hwne⟩
    · rw [hrunP]
      show lookupDoc (updateDocAt s.people pid _) pid = _
      rw [lookupDoc_updateDocAt_self, hp]
      rfl
    · rw [getField_merge3_thd]
      have e : pyGet dp "studentId" Value.null = .str v := by simp [pyGet, hd]
      rw [e, hw]
  · intro hd
    obtain ⟨w, hw, hwne⟩ := pyOrValue_keeps_nonempty (pyStrip tIn) v hv
    refine ⟨mergeUpdate dm
      [("role", pyOrValue (pyStrip rIn) (pyGet dm "role" .null)),
       ("status", pyOrValue (pyStrip stIn) (pyGet dm "status" .null)),
       ("title", pyOrValue (pyStrip tIn) (pyGet dm "title" .null))], w, ?_, ?_, hwne⟩
    · rw [hrunM]
      exact lookupMembership_updateMemAt s cid mid dm _ hm
    · rw [getField_merge3_thd]
      have e : pyGet dm "title" Value.null = .str v := by simp [pyGet, hd]
      rw [e, hw]

/-- Concrete run of the cannot-clear contract on `W1`: a blank
terminal update leaves person 10's email a non-empty string and
membership 2's title a non-empty string. -/
theorem terminal_update_cannot_clear_witness :
    (∃ d2 w, lookupDoc (mainUpdatePerson W1 10 "" "" "").people 10 = some d2 ∧
      getField d2 "email" = some (.str w) ∧ w ≠ "") ∧
    (∃ d2 w, lookupMembership (mainUpdateMembership W1 1 2 "" "" "") 1 2 = some d2 ∧
      getField d2 "title" = some (.str w) ∧ w ≠ "") := by
  refine ⟨?_, ?_⟩
  · exact (terminal_update_cannot_clear W1 0 10 1 2
      (appUniversity 5 "UTA" (some "uta.edu") none)
      (appPerson 7 "Ada" (some "ada@uta.edu") (some "123") none)
      (appMembershipDoc 8 10 "officer" "active" (some "VP") none)
      "ada@uta.edu" "" "" "" "" "" "" "" (by decide) (by decide) (by decide)
      (by decide)).2.1 (by decide)
  · exact (terminal_update_cannot_clear W1 0 10 1 2
      (appUniversity 5 "UTA" (some "uta.edu") none)
      (appPerson 7 "Ada" (some "ada@uta.edu") (some "123") none)
      (appMembershipDoc 8 10 "officer" "active" (some "VP") none)
      "VP" "" "" "" "" "" "" "" (by decide) (by decide) (by decide)
      (by decide)).2.2.2 (by decide)

/-- Claim C10: the web `add_member` handler checks that the target club
exists before any write: a nonexistent club id yields a not-found
outcome with the store untouched, and any membership present after the
call either existed before or sits under the existing checked club. -/
theorem add_member_requires_existing_club (now : Nat) (s : Store) (cid : Nat)
    (pSel : Option Nat) (rf stf tf : String) :
    (lookupDoc s.clubs cid = none →
      appAddMember now s cid pSel rf stf tf = (.notFound, s)) ∧
    (∀ m ∈ (appAddMember now s cid pSel rf stf tf).2.memberships,
      m ∈ s.memberships ∨ (m.1 = cid ∧ ∃ cd, lookupDoc s.clubs cid = some cd)) := by
  constructor
  · intro h
    simp [appAddMember, h]
  · intro m hm
    unfold appAddMember at hm
    cases hc : lookupDoc s.clubs cid with
    | none => rw [hc] at hm; left; exact hm
    | some cd =>
      rw [hc] at hm
      cases pSel with
      | none => left; exact hm
      | some pid =>
        simp only [] at hm
        rcases List.mem_append.mp hm with h1 | h1
        · left; exact h1
        · right
          have hme := List.mem_singleton.mp h1
          refine ⟨?_, cd, rfl⟩
          rw [hme]

/-- Concrete run of the club-existence check: `emptyStore` has no club
1, so adding a member reports not-found and writes nothing. -/
theorem add_member_requires_existing_club_witness :
    appAddMember 5 emptyStore 1 (some 10) "" "" "" = (.notFound, emptyStore) :=
  (add_member_requires_existing_club 5 emptyStore 1 (some 10) "" "" "").1 (by decide)

end StudentOrgs
